import Mathlib

/-!
# mini-sql-customer-database: shallow embedding and verified properties

The C program `mini-sql-customer-database.c` keeps a table of customer
records in memory and mutates it by quasi-SQL command lines.  This file
embeds the program in Lean and proves properties of the embedding.

Conventions of the embedding:

* a C string is the list of its bytes before the terminating NUL
  (`CStr`); a `char *` that may be `NULL` is an `Option CStr`;
* `int` values are mathematical integers (`Int`); the program never
  relies on wrap-around, and conversions of numerals that do not fit an
  `int` are left undefined by C;
* the global variables `customer_table`, `customer_count`,
  `table_capacity`, `next_customer_id` form the record `Store`; the live
  prefix of the array is a list, `customer_count` is its length;
* a function whose C execution overruns a buffer returns `none`;
* `malloc`, `realloc` and `fopen` are assumed to succeed.
-/

namespace MiniSql

/-! ## C strings and the libc functions the program calls -/

/-- Bytes of a C string, the terminating NUL excluded. -/
abbrev CStr := List Nat

/-- Bytes of an ASCII string literal. -/
def cstr (s : String) : CStr := s.toList.map Char.toNat

def MAX_NAME_LEN : Nat := 100
def MAX_EMAIL_LEN : Nat := 100
def MAX_DATE_LEN : Nat := 11
def MAX_LINE_LEN : Nat := 512
def MAX_FIELD_LEN : Nat := 150
def INITIAL_CAPACITY : Nat := 10

/-- The libc `isspace` in the C locale: space, `\t`, `\n`, `\v`, `\f`, `\r`. -/
def isspace (c : Nat) : Bool := c == 32 || (9 ≤ c && c ≤ 13)

/-- The libc `isdigit`. -/
def isdigit (c : Nat) : Bool := 48 ≤ c && c ≤ 57

/-- Reading `s[i]` of a C string: index `strlen s` reads the NUL. -/
def byteAt (s : CStr) (i : Nat) : Nat := s.getD i 0

/-- The libc `strchr`: the suffix starting at the first occurrence of `ch`,
or `none` (NULL). -/
def strchr : CStr → Nat → Option CStr
  | [], _ => none
  | c :: cs, ch => if c = ch then some (c :: cs) else strchr cs ch

/-- The libc `strstr`, as the offset of the first occurrence of `needle`
in `hay`, or `none` (NULL). -/
def strstr : CStr → CStr → Option Nat
  | [], needle => if needle.isPrefixOf [] then some 0 else none
  | c :: cs, needle =>
    if needle.isPrefixOf (c :: cs) then some 0
    else (strstr cs needle).map (· + 1)

/-- The assignment `s[strcspn(s, reject)] = 0`: cut `s` at the first byte
that occurs in `reject`. -/
def cut_at (s reject : CStr) : CStr := s.takeWhile (fun c => !reject.contains c)

/-- The call `strncmp(s, lit, strlen(lit)) == 0`. -/
def starts_with (s lit : CStr) : Bool := lit.isPrefixOf s

/-- The libc `strtok_r` (and `strtok`, whose save pointer is hidden): called
on the text at the current position, it yields the next token (or `none`
for NULL) and the new save position. -/
def strtok_r (s delim : CStr) : Option CStr × CStr :=
  let s1 := s.dropWhile (fun c => delim.contains c)
  if s1 = [] then (none, [])
  else
    let tok := s1.takeWhile (fun c => !delim.contains c)
    let rest := s1.dropWhile (fun c => !delim.contains c)
    (some tok, rest.drop 1)

/-- Value of the longest run of decimal digits at the head of the text,
accumulated onto `acc`, and the text after the run. -/
def digitsValue : CStr → Nat → Nat × CStr
  | [], acc => (acc, [])
  | c :: cs, acc =>
    if isdigit c then digitsValue cs (acc * 10 + (c - 48)) else (acc, c :: cs)

/-- The libc `atoi`: skip white space, read an optional sign and the
digits that follow; `0` when there is no digit. -/
def atoi (s : CStr) : Int :=
  let s1 := s.dropWhile isspace
  match s1 with
  | 45 :: r => -((digitsValue r 0).1 : Int)
  | 43 :: r => ((digitsValue r 0).1 : Int)
  | _ => ((digitsValue s1 0).1 : Int)

/-- The `%d` directive of `sscanf`: skip white space, read an optional sign
and at least one digit; `none` is a matching failure. -/
def scan_d (s : CStr) : Option (Int × CStr) :=
  let s1 := s.dropWhile isspace
  let neg := s1.head? = some 45
  let s2 := if s1.head? = some 45 ∨ s1.head? = some 43 then s1.drop 1 else s1
  match s2 with
  | [] => none
  | c :: cs =>
    if isdigit c then
      let r := digitsValue (c :: cs) 0
      some (if neg then -(r.1 : Int) else (r.1 : Int), r.2)
    else none

/-- A literal (non-space) piece of a `sscanf` format. -/
def scan_lit (lit s : CStr) : Option CStr :=
  if lit.isPrefixOf s then some (s.drop lit.length) else none

/-- A white-space directive of a `sscanf` format: any amount of white space. -/
def scan_ws (s : CStr) : CStr := s.dropWhile isspace

/-- Digits of `n` in base ten, most significant first, pushed onto `ds`
(what `printf` writes for a non-negative `%d`). -/
def dec_digits_core : Nat → Nat → CStr → CStr
  | 0, _, ds => ds
  | fuel + 1, n, ds =>
    if n / 10 = 0 then (48 + n % 10) :: ds
    else dec_digits_core fuel (n / 10) ((48 + n % 10) :: ds)

def dec_digits (n : Nat) : CStr := dec_digits_core (n + 1) n []

/-- The `printf` conversion `%d`. -/
def printf_d (v : Int) : CStr :=
  if v < 0 then 45 :: dec_digits v.natAbs else dec_digits v.natAbs

/-- The `printf` conversion `%0wd`: zero padding up to width `w`, the sign
counted in the width. -/
def printf_0d (w : Nat) (v : Int) : CStr :=
  let ds := dec_digits v.natAbs
  if v < 0 then 45 :: (List.replicate (w - 1 - ds.length) 48 ++ ds)
  else List.replicate (w - ds.length) 48 ++ ds

/-! ## Data model -/

structure Date where
  day : Int
  month : Int
  year : Int
deriving DecidableEq, Repr

/-- A customer record.  `job_type` is the ordinal of the C enum `JobType`.
The `char *` fields of a live record are never NULL (they come from
`strdup_custom` of a non-NULL buffer). -/
structure Customer where
  id : Int
  name : CStr
  mail : CStr
  job_type : Int
  email_verified : Int
  date_of_birth : Date
deriving DecidableEq, Repr

/-- The global state of the program. -/
structure Store where
  customer_table : List Customer
  table_capacity : Nat
  next_customer_id : Int
deriving DecidableEq, Repr

def Store.customer_count (st : Store) : Nat := st.customer_table.length

/-- The initial values of the globals. -/
def initial_store : Store :=
  { customer_table := [], table_capacity := 0, next_customer_id := 1 }

def JOB_TYPE_COUNT : Int := 8

def job_type_strings : List CStr :=
  [cstr "BACKEND_DEVELOPER", cstr "FRONTEND_DEVELOPER", cstr "FULLSTACK_DEVELOPER",
   cstr "MOBILE_DEVELOPER", cstr "EMBEDDED_SOFTWARE_ENGINEER", cstr "GAME_DEVELOPER",
   cstr "DEVOPS_ENGINEER", cstr "TEST_ENGINEER"]

/-! ## Text utilities -/

def trim_whitespace (str : CStr) : CStr :=
  if str = [] then str
  else
    let start := str.dropWhile isspace
    start.rdropWhile isspace

def trim_quotes_if_present (str : CStr) : CStr :=
  let len := str.length
  if 2 ≤ len then
    if byteAt str 0 = 34 ∧ byteAt str (len - 1) = 34 then
      (str.drop 1).take (len - 2)
    else if 6 ≤ len ∧ byteAt str 0 = 0xE2 ∧ byteAt str 1 = 0x80 ∧ byteAt str 2 = 0x9C
        ∧ byteAt str (len - 3) = 0xE2 ∧ byteAt str (len - 2) = 0x80
        ∧ byteAt str (len - 1) = 0x9D then
      (str.drop 3).take (len - 6)
    else str
  else str

/-! ## Field codecs -/

def zero_date : Date := { day := 0, month := 0, year := 0 }

/-- The call `sscanf(s, "%d.%d.%d", &d->day, &d->month, &d->year)`: the
number of items assigned and the date object afterwards.  An `EOF` result
is reported as `0`: callers only compare the result with `3`. -/
def sscanf_date (s : CStr) (d : Date) : Nat × Date :=
  match scan_d s with
  | none => (0, d)
  | some (a, r1) =>
    let d1 := { d with day := a }
    match scan_lit [46] r1 with
    | none => (1, d1)
    | some r1 =>
      match scan_d r1 with
      | none => (1, d1)
      | some (b, r2) =>
        let d2 := { d1 with month := b }
        match scan_lit [46] r2 with
        | none => (2, d2)
        | some r2 =>
          match scan_d r2 with
          | none => (2, d2)
          | some (c, _) => (3, { d2 with year := c })

/-- The function `parse_date`: `date_obj` is the object behind the out
pointer before the call, the result is that object after the call. -/
def parse_date (date_str : Option CStr) (date_obj : Date) : Date :=
  match date_str with
  | none => zero_date
  | some s =>
    if s.length = 0 ∨ s = cstr "0.0.0" then zero_date
    else
      let r := sscanf_date s date_obj
      if r.1 ≠ 3 then zero_date else r.2

def int_to_job_type (val : Int) : Int :=
  if 0 ≤ val ∧ val < JOB_TYPE_COUNT then val else 0

def job_type_to_string (jt : Int) : CStr :=
  if 0 ≤ jt ∧ jt < JOB_TYPE_COUNT then job_type_strings.getD jt.toNat []
  else cstr "UNKNOWN_JOB_TYPE"

/-! ## Record store -/

def ensure_table_capacity (st : Store) : Store :=
  if st.customer_count ≥ st.table_capacity then
    { st with table_capacity :=
        if st.table_capacity = 0 then INITIAL_CAPACITY else st.table_capacity * 2 }
  else st

def add_customer_record (st : Store) (customer : Customer) : Store :=
  let st1 := ensure_table_capacity st
  { st1 with customer_table := st1.customer_table ++ [customer] }

/-- One iteration of the `fgets` loop of `load_initial_data`; `line` is the
buffer `fgets` filled. -/
def load_line (st : Store) (line : CStr) : Store :=
  let line := cut_at line [13, 10]
  let id := st.next_customer_id
  let t1 := strtok_r line (cstr ",")
  let name := match t1.1 with
    | some token => if token.length > 0 then token else cstr "null"
    | none => cstr "null"
  let t2 := strtok_r t1.2 (cstr ",")
  let mail := match t2.1 with
    | some token => if token.length > 0 then token else cstr "null"
    | none => cstr "null"
  let t3 := strtok_r t2.2 (cstr ",")
  let job_type := match t3.1 with
    | some token => if token.length > 0 then int_to_job_type (atoi token) else 0
    | none => 0
  let t4 := strtok_r t3.2 (cstr ",")
  let email_verified := match t4.1 with
    | some token => if token.length > 0 then atoi token else 0
    | none => 0
  let t5 := strtok_r t4.2 []
  let date_text := match t5.1 with
    | some token => if token.length > 0 then token else cstr "0.0.0"
    | none => cstr "0.0.0"
  let date_of_birth := parse_date (some date_text) zero_date
  add_customer_record { st with next_customer_id := id + 1 }
    { id := id, name := name, mail := mail, job_type := job_type,
      email_verified := email_verified, date_of_birth := date_of_birth }

/-- The function `load_initial_data` on the lines `fgets` reads from the
seed file (no line when the file cannot be opened). -/
def load_initial_data (st : Store) (lines : List CStr) : Store :=
  lines.foldl load_line st

/-! ## Snapshot serializer -/

/-- The text one `fprintf` of `print_table_to_file` writes for a record. -/
def print_customer (c : Customer) : CStr :=
  c.name ++ cstr "," ++ c.mail ++ cstr "," ++ job_type_to_string c.job_type ++ cstr ","
    ++ (if c.email_verified ≠ 0 then cstr "true" else cstr "false") ++ cstr ","
    ++ printf_0d 2 c.date_of_birth.day ++ cstr "." ++ printf_0d 2 c.date_of_birth.month
    ++ cstr "." ++ printf_0d 4 c.date_of_birth.year ++ [10]

/-- The bytes `print_table_to_file` writes. -/
def print_table_to_file (st : Store) : CStr :=
  (st.customer_table.map print_customer).flatten

/-- The bytes `print_separator_and_table_to_file` appends to the output. -/
def print_separator_and_table_to_file (st : Store) (is_error_condition : Int)
    (error_message : Option CStr) : CStr :=
  cstr "----------" ++ [10] ++
    (if is_error_condition ≠ 0 then
      match error_message with
      | some m => m ++ [10]
      | none => []
    else print_table_to_file st)

/-! ## INSERT -/

/-- The out parameters of `robust_parse_insert_values`. -/
structure InsertValues where
  name_out : CStr
  email_out : CStr
  job_type_out : Int
  email_verified_out : Int
  date_str_out : CStr
deriving DecidableEq, Repr

/-- The inner loop of `robust_parse_insert_values`: from `cursor`, with the
quote flag `in_quotes`, the number of bytes the cursor advances before the
loop ends. -/
def scan_token : CStr → Bool → Nat
  | [], _ => 0
  | c :: cs, in_quotes =>
    if c = 41 then 0
    else if c = 34 then 1 + scan_token cs (!in_quotes)
    else
      match cs with
      | c1 :: c2 :: rest =>
        if c = 0xE2 ∧ c1 = 0x80 ∧ (c2 = 0x9C ∨ c2 = 0x9D) then
          3 + scan_token rest (!in_quotes)
        else if in_quotes = false ∧ c = 44 then 0
        else 1 + scan_token (c1 :: c2 :: rest) in_quotes
      | rest =>
        if in_quotes = false ∧ c = 44 then 0
        else 1 + scan_token rest in_quotes

/-- The `switch` of `robust_parse_insert_values` on a non-empty token. -/
def store_field (field_index : Nat) (token_buffer : CStr) (out : InsertValues) :
    InsertValues :=
  match field_index with
  | 0 => { out with name_out := token_buffer.take (MAX_NAME_LEN - 1) }
  | 1 => { out with email_out := token_buffer.take (MAX_EMAIL_LEN - 1) }
  | 2 => { out with job_type_out := atoi token_buffer }
  | 3 => { out with email_verified_out := atoi token_buffer }
  | 4 => { out with date_str_out := token_buffer.take (MAX_DATE_LEN - 1) }
  | _ => out

/-- The outer loop of `robust_parse_insert_values`, started at position `p`
with `left = 5 - field_index` iterations still allowed by the test
`field_index < 5`. -/
def parse_fields : Nat → Nat → CStr → InsertValues → InsertValues
  | 0, _, _, out => out
  | left + 1, field_index, p, out =>
    if byteAt p 0 = 0 ∨ byteAt p 0 = 41 then out
    else
      let cursor_offset := scan_token p false
      let token_len :=
        if cursor_offset ≥ MAX_FIELD_LEN then MAX_FIELD_LEN - 1 else cursor_offset
      let token_buffer := trim_quotes_if_present (trim_whitespace (p.take token_len))
      let out1 :=
        if token_buffer.length > 0 then store_field field_index token_buffer out else out
      let p1 := p.drop cursor_offset
      let p2 := if byteAt p1 0 = 44 then p1.drop 1 else p1
      parse_fields left (field_index + 1) p2 out1

def robust_parse_insert_values (values_str_const : Option CStr) : InsertValues :=
  let defaults : InsertValues :=
    { name_out := cstr "null", email_out := cstr "null", job_type_out := 0,
      email_verified_out := 0, date_str_out := cstr "0.0.0" }
  match values_str_const with
  | none => defaults
  | some values_str =>
    if values_str.length = 0 then defaults
    else
      let values_copy := values_str.take (MAX_LINE_LEN - 1)
      let p := if byteAt values_copy 0 = 40 then values_copy.drop 1 else values_copy
      parse_fields 5 0 p defaults

def handle_insert_command (st : Store) (params : CStr) : Store :=
  match strchr params 40 with
  | none => st
  | some values_part =>
    let v := robust_parse_insert_values (some values_part)
    let new_customer : Customer :=
      { id := st.next_customer_id,
        name := v.name_out,
        mail := v.email_out,
        job_type := int_to_job_type v.job_type_out,
        email_verified := v.email_verified_out,
        date_of_birth := parse_date (some v.date_str_out) zero_date }
    add_customer_record { st with next_customer_id := st.next_customer_id + 1 } new_customer

/-! ## DELETE -/

/-- The call `sscanf(where_clause, "WHERE id=%d", &delete_id)`: the value
assigned when the call returns `1`. -/
def sscanf_where_id (where_clause : CStr) : Option Int :=
  match scan_lit (cstr "WHERE") where_clause with
  | none => none
  | some r =>
    match scan_lit (cstr "id=") (scan_ws r) with
    | none => none
    | some r => (scan_d r).map Prod.fst

/-- The `for (i = 0; i < customer_count; )` loop of `handle_delete_command`
from index `i`; closing the gap at `i` by the inner shifting loop and
decrementing `customer_count` is `eraseIdx`. -/
def delete_loop (delete_id : Int) (i : Nat) (table : List Customer) : List Customer :=
  if h : i < table.length then
    if (table.get ⟨i, h⟩).id = delete_id then
      delete_loop delete_id i (table.eraseIdx i)
    else delete_loop delete_id (i + 1) table
  else table
termination_by table.length - i
decreasing_by
  · simp only [List.length_eraseIdx, h, if_true]
    omega
  · omega

def handle_delete_command (st : Store) (params : CStr) : Store :=
  match strstr params (cstr "WHERE id=") with
  | none => st
  | some off =>
    match sscanf_where_id (params.drop off) with
    | some delete_id =>
      { st with customer_table := delete_loop delete_id 0 st.customer_table }
    | none => st

/-! ## UPDATE -/

/-- The call `sscanf(where_clause_start, " WHERE id=%d", &update_id)`. -/
def sscanf_sp_where_id (where_clause_start : CStr) : Option Int :=
  sscanf_where_id (scan_ws where_clause_start)

/-- The search loop of `handle_update_command`: index of the first record
with the given id. -/
def find_customer : List Customer → Int → Option Nat
  | [], _ => none
  | c :: cs, update_id =>
    if c.id = update_id then some 0 else (find_customer cs update_id).map (· + 1)

/-- The body of the `while (token_set)` loop of `handle_update_command`
for one item of the SET clause. -/
def apply_set_item (token_set : CStr) (target : Customer) : Customer :=
  let current_set_item := token_set.take (MAX_FIELD_LEN - 1)
  let r1 := strtok_r current_set_item (cstr "=")
  let r2 := strtok_r r1.2 []
  match r1.1, r2.1 with
  | some field_name, some field_value_str =>
    let field_name := trim_whitespace field_name
    let field_value_str := trim_quotes_if_present (trim_whitespace field_value_str)
    if field_name = cstr "name" then { target with name := field_value_str }
    else if field_name = cstr "email" ∨ field_name = cstr "mail" then
      { target with mail := field_value_str }
    else if field_name = cstr "job_type" then
      { target with job_type := int_to_job_type (atoi field_value_str) }
    else if field_name = cstr "email_verified" then
      if field_value_str = cstr "true" then { target with email_verified := 1 }
      else if field_value_str = cstr "false" then { target with email_verified := 0 }
      else { target with email_verified := atoi field_value_str }
    else if field_name = cstr "date" then
      { target with date_of_birth := parse_date (some field_value_str) target.date_of_birth }
    else target
  | _, _ => target

/-- The `while (token_set)` loop of `handle_update_command`; `save` is the
text at `saveptr_set_outer` (the whole SET text before the first call). -/
def set_loop (save : CStr) (target : Customer) : Customer :=
  match h : strtok_r save (cstr ",") with
  | (none, _) => target
  | (some token_set, save1) => set_loop save1 (apply_set_item token_set target)
termination_by save.length
decreasing_by
  simp only [strtok_r] at h
  split at h
  · simp at h
  · rename_i hne
    simp only [Prod.mk.injEq, Option.some.injEq] at h
    rw [← h.2]
    have h1 := (@List.dropWhile_sublist _ save (fun c => (cstr ",").contains c)).length_le
    have h2 := (@List.dropWhile_sublist _
      (List.dropWhile (fun c => (cstr ",").contains c) save)
      (fun c => !(cstr ",").contains c)).length_le
    have h3 : 0 < (List.dropWhile (fun c => (cstr ",").contains c) save).length :=
      List.length_pos.mpr hne
    simp only [List.length_drop]
    omega

/-- The function `handle_update_command`: the returned `int` and the store
afterwards; `none` when a buffer is overrun. -/
def handle_update_command (st : Store) (params : CStr) : Option (Int × Store) :=
  match strstr params (cstr " SET "), strstr params (cstr " WHERE id=") with
  | some set_off, some where_off =>
    if set_off > where_off then some (1, st)
    else if where_off < set_off + 5 then none
    else if where_off - (set_off + 5) ≥ MAX_LINE_LEN then none
    else
      let set_str_full := (params.drop (set_off + 5)).take (where_off - (set_off + 5))
      match sscanf_sp_where_id (params.drop where_off) with
      | none => some (1, st)
      | some update_id =>
        match find_customer st.customer_table update_id with
        | none => some (1, st)
        | some i =>
          let target := st.customer_table.getD i
            { id := 0, name := [], mail := [], job_type := 0, email_verified := 0,
              date_of_birth := zero_date }
          some (0, { st with
            customer_table := st.customer_table.set i (set_loop set_str_full target) })
  | _, _ => some (1, st)

/-! ## TRUNCATE -/

def handle_truncate_command (_st : Store) : Store :=
  { customer_table := [], table_capacity := 0, next_customer_id := 1 }

/-! ## Command dispatcher -/

/-- The `if`/`else if` chain of `process_commands` followed by the call of
`print_separator_and_table_to_file`: the store afterwards and the bytes
appended to the output. -/
def dispatch (st : Store) (command_type params_part : CStr) : Option (Store × CStr) :=
  if command_type = cstr "INSERT" ∧ starts_with params_part (cstr "INTO CUSTOMER") then
    let actual_params_for_insert :=
      (params_part.drop (cstr "INTO CUSTOMER").length).dropWhile isspace
    let st1 := handle_insert_command st actual_params_for_insert
    some (st1, print_separator_and_table_to_file st1 0 none)
  else if command_type = cstr "DELETE" ∧ starts_with params_part (cstr "FROM CUSTOMER") then
    let st1 := handle_delete_command st params_part
    some (st1, print_separator_and_table_to_file st1 0 none)
  else if command_type = cstr "UPDATE" ∧ starts_with params_part (cstr "CUSTOMER") then
    match handle_update_command st params_part with
    | none => none
    | some (update_error_occurred, st1) =>
      some (st1, print_separator_and_table_to_file st1 update_error_occurred
        (if update_error_occurred ≠ 0 then some (cstr "error") else none))
  else if command_type = cstr "TRUNCATE" ∧ starts_with params_part (cstr "TABLE CUSTOMER") then
    let st1 := handle_truncate_command st
    some (st1, print_separator_and_table_to_file st1 0 none)
  else some (st, print_separator_and_table_to_file st 0 none)

/-- One iteration of the `fgets` loop of `process_commands` on the buffer
`line_buffer`: the store afterwards and the bytes appended to the output
(none for a blank line); `none` when `command_type` is overrun, which
happens when the first space of the line is at offset 50 or later. -/
def process_line (st : Store) (line_buffer : CStr) : Option (Store × CStr) :=
  let line_ptr := trim_whitespace (cut_at (cut_at line_buffer [13, 10]) (cstr ";"))
  if line_ptr.length = 0 then some (st, [])
  else
    match strchr line_ptr 32 with
    | some at_space =>
      let n := line_ptr.length - at_space.length
      if n ≥ 50 then none
      else
        let command_type := line_ptr.take n
        let params_part := (at_space.drop 1).dropWhile isspace
        dispatch st command_type params_part
    | none => dispatch st (line_ptr.take 49) []

/-- The function `process_commands` on the buffers `fgets` reads from the
command file: the final store and everything appended to the output. -/
def process_commands : Store → List CStr → Option (Store × CStr)
  | st, [] => some (st, [])
  | st, line :: lines =>
    match process_line st line with
    | none => none
    | some (st1, out1) =>
      match process_commands st1 lines with
      | none => none
      | some (st2, out2) => some (st2, out1 ++ out2)

/-- A store the program can be in between two command lines: the seed
file is loaded into the initial store, then command lines are processed. -/
def Reachable (st : Store) : Prop :=
  ∃ (seed commands : List CStr) (out : CStr),
    process_commands (load_initial_data initial_store seed) commands = some (st, out)

/-! ## Invariants of the store -/

/-- Every id in the table is below the id counter, and no id occurs twice. -/
def IdsFresh (st : Store) : Prop :=
  (∀ c ∈ st.customer_table, c.id < st.next_customer_id) ∧
  (st.customer_table.map Customer.id).Nodup

/-- Every job type in the table is one of the ordinals 0..7. -/
def JobTypesValid (st : Store) : Prop :=
  ∀ c ∈ st.customer_table, 0 ≤ c.job_type ∧ c.job_type < 8

/-- The size is at most the capacity, and the capacity is 0 or 10 times a power of two. -/
def CapacityOk (st : Store) : Prop :=
  st.customer_count ≤ st.table_capacity ∧
  (st.table_capacity = 0 ∨ ∃ n : Nat, st.table_capacity = 10 * 2 ^ n)

/-! ## The items of a SET clause -/

/-- The items of a SET clause in the order the `while (token_set)` loop of
`handle_update_command` visits them: the successive results of
`strtok_r(..., ",", &saveptr_set_outer)`; `fuel` bounds their number. -/
def set_items_from : Nat → CStr → List CStr
  | 0, _ => []
  | fuel + 1, save =>
    match strtok_r save (cstr ",") with
    | (none, _) => []
    | (some token_set, save1) => token_set :: set_items_from fuel save1

/-- The items of the SET text `set_str_full`; every item holds at least one
byte, so `strlen(set_str_full)` bounds their number. -/
def set_items (set_str_full : CStr) : List CStr :=
  set_items_from set_str_full.length set_str_full

/-- The field name `handle_update_command` finds in one item of the SET
clause: the text before the first `=`, trimmed, when a value follows it. -/
def item_field_name (token_set : CStr) : Option CStr :=
  let current_set_item := token_set.take (MAX_FIELD_LEN - 1)
  let r1 := strtok_r current_set_item (cstr "=")
  let r2 := strtok_r r1.2 []
  match r1.1, r2.1 with
  | some field_name, some _ => some (trim_whitespace field_name)
  | _, _ => none

/-! ## Specification of the INSERT value list -/

/-- Specification of the tokenizer (spec 4.4): the length of the token at the
head of the text.  A token spans the bytes up to the next comma or closing
parenthesis that is not inside an open quote region; a plain double quote or
a 3-byte curly quote opens or closes a region. -/
def spec_token_len : CStr → Bool → Nat
  | [], _ => 0
  | c :: cs, in_quotes =>
    if c = 34 then 1 + spec_token_len cs (!in_quotes)
    else
      match cs with
      | c1 :: c2 :: rest =>
        if c = 0xE2 ∧ c1 = 0x80 ∧ (c2 = 0x9C ∨ c2 = 0x9D) then
          3 + spec_token_len rest (!in_quotes)
        else if in_quotes = false ∧ (c = 44 ∨ c = 41) then 0
        else 1 + spec_token_len (c1 :: c2 :: rest) in_quotes
      | rest =>
        if in_quotes = false ∧ (c = 44 ∨ c = 41) then 0
        else 1 + spec_token_len rest in_quotes

/-- Specification of the value list (spec 4.4): its first `n` raw tokens, up
to the closing parenthesis; a comma separates two tokens. -/
def spec_tokens : Nat → CStr → List CStr
  | 0, _ => []
  | n + 1, p =>
    if p = [] ∨ byteAt p 0 = 41 then []
    else
      let rest := p.drop (spec_token_len p false)
      p.take (spec_token_len p false) ::
        spec_tokens n (if byteAt rest 0 = 44 then rest.drop 1 else rest)

/-- The text of a value list is free of quoted parentheses when, up to its first
closing parenthesis outside a quote region, no closing parenthesis stands
inside an open quote region. -/
def no_quoted_paren : CStr → Bool → Bool
  | [], _ => true
  | c :: cs, in_quotes =>
    if c = 41 then !in_quotes
    else if c = 34 then no_quoted_paren cs (!in_quotes)
    else
      match cs with
      | c1 :: c2 :: rest =>
        if c = 0xE2 ∧ c1 = 0x80 ∧ (c2 = 0x9C ∨ c2 = 0x9D) then
          no_quoted_paren rest (!in_quotes)
        else no_quoted_paren (c1 :: c2 :: rest) in_quotes
      | rest => no_quoted_paren rest in_quotes

/-- Optional leading `(` of a value list removed. -/
def spec_value_list (v : CStr) : CStr := if byteAt v 0 = 40 then v.drop 1 else v

/-- Specification of the fields: every raw token trimmed and quote-stripped. -/
def spec_fields (tokens : List CStr) : List CStr :=
  tokens.map (fun t => trim_quotes_if_present (trim_whitespace t))

/-- The fields as the code extracts them: the raw token is cut to the size of
`token_buffer` before it is trimmed and quote-stripped. -/
def cut_fields (tokens : List CStr) : List CStr :=
  tokens.map (fun t => trim_quotes_if_present (trim_whitespace (t.take (MAX_FIELD_LEN - 1))))

/-- Specification of the five positional values (spec 4.4, 3): the field at
each position when it is not empty, otherwise the default of the position. -/
def spec_values (fields : List CStr) : InsertValues :=
  { name_out := if (fields.getD 0 []).length > 0 then fields.getD 0 [] else cstr "null",
    email_out := if (fields.getD 1 []).length > 0 then fields.getD 1 [] else cstr "null",
    job_type_out := if (fields.getD 2 []).length > 0 then atoi (fields.getD 2 []) else 0,
    email_verified_out := if (fields.getD 3 []).length > 0 then atoi (fields.getD 3 []) else 0,
    date_str_out := if (fields.getD 4 []).length > 0 then fields.getD 4 [] else cstr "0.0.0" }

/-- The text values cut to the sizes of the output buffers. -/
def cut_values (v : InsertValues) : InsertValues :=
  { v with name_out := v.name_out.take (MAX_NAME_LEN - 1),
           email_out := v.email_out.take (MAX_EMAIL_LEN - 1),
           date_str_out := v.date_str_out.take (MAX_DATE_LEN - 1) }

/-- The `switch` of `robust_parse_insert_values` applied to the fields of
positions `field_index`, `field_index + 1`, ... in turn. -/
def store_fields : Nat → List CStr → InsertValues → InsertValues
  | _, [], out => out
  | field_index, f :: fs, out =>
    store_fields (field_index + 1) fs
      (if f.length > 0 then store_field field_index f out else out)

/-! ## Example states -/

/-- A store with two records, reached by one seed line and one INSERT. -/
def example_store : Store :=
  { customer_table :=
      [{ id := 1, name := cstr "Bob", mail := cstr "bob@x.com", job_type := 2,
         email_verified := 1, date_of_birth := { day := 1, month := 1, year := 2000 } },
       { id := 2, name := cstr "Alice", mail := cstr "alice@x.com", job_type := 0,
         email_verified := 1, date_of_birth := { day := 1, month := 2, year := 1990 } }],
    table_capacity := 10, next_customer_id := 3 }

/-- A store in which two records share the id 1. -/
def duplicate_id_store : Store :=
  { customer_table :=
      [{ id := 1, name := cstr "Bob", mail := cstr "bob@x.com", job_type := 2,
         email_verified := 1, date_of_birth := { day := 1, month := 1, year := 2000 } },
       { id := 2, name := cstr "Alice", mail := cstr "alice@x.com", job_type := 0,
         email_verified := 1, date_of_birth := { day := 1, month := 2, year := 1990 } },
       { id := 1, name := cstr "Carol", mail := cstr "carol@x.com", job_type := 3,
         email_verified := 0, date_of_birth := { day := 2, month := 3, year := 1980 } }],
    table_capacity := 10, next_customer_id := 3 }

/-- The parameters of `UPDATE CUSTOMER SET job_type=5, nick=x WHERE id=2`. -/
def example_update_params : CStr := cstr "CUSTOMER SET job_type=5, nick=x WHERE id=2"

/-- The example store after `UPDATE CUSTOMER SET job_type=5, nick=x WHERE id=2`. -/
def updated_example_store : Store :=
  { example_store with
    customer_table := example_store.customer_table.set 1
      { id := 2, name := cstr "Alice", mail := cstr "alice@x.com", job_type := 5,
        email_verified := 1, date_of_birth := { day := 1, month := 2, year := 1990 } } }

/-- The example store after `UPDATE CUSTOMER SET name="" WHERE id=1`. -/
def empty_name_store : Store :=
  { customer_table :=
      [{ id := 1, name := [], mail := cstr "bob@x.com", job_type := 2,
         email_verified := 1, date_of_birth := { day := 1, month := 1, year := 2000 } },
       { id := 2, name := cstr "Alice", mail := cstr "alice@x.com", job_type := 0,
         email_verified := 1, date_of_birth := { day := 1, month := 2, year := 1990 } }],
    table_capacity := 10, next_customer_id := 3 }

/-! ## Supporting lemmas -/

theorem strchr_ne_none_of_mem (s : CStr) (ch : Nat) (h : ch ∈ s) :
    ∃ r, strchr s ch = some r := by
  induction s with
  | nil => simp at h
  | cons c cs ih =>
    unfold strchr
    by_cases hc : c = ch
    · exact ⟨c :: cs, by simp [hc]⟩
    · have : ch ∈ cs := by
        rcases List.mem_cons.mp h with h1 | h1
        · exact absurd h1.symm hc
        · exact h1
      obtain ⟨r, hr⟩ := ih this
      exact ⟨r, by simp [hc, hr]⟩

theorem update_error_keeps_store (st st1 : Store) (params : CStr) (r : Int)
    (h : handle_update_command st params = some (r, st1)) (hr : r ≠ 0) : st1 = st := by
  unfold handle_update_command at h
  split at h
  · split_ifs at h
    · simp at h; exact h.2.symm
    · split at h
      · simp at h; exact h.2.symm
      · split at h
        · simp at h; exact h.2.symm
        · simp at h; exact absurd h.1.symm hr
  · simp at h; exact h.2.symm

theorem scan_token_cons (c : Nat) (cs : CStr) (q : Bool) :
    scan_token (c :: cs) q =
      if c = 41 then 0
      else if c = 34 then 1 + scan_token cs (!q)
      else if c = 0xE2 ∧ byteAt cs 0 = 0x80 ∧ (byteAt cs 1 = 0x9C ∨ byteAt cs 1 = 0x9D) then
        3 + scan_token (cs.drop 2) (!q)
      else if q = false ∧ c = 44 then 0
      else 1 + scan_token cs q := by
  rcases cs with _ | ⟨c1, _ | ⟨c2, rest⟩⟩ <;> simp [scan_token, byteAt]

theorem scan_token_quoted (s t : CStr) (h34 : 34 ∉ s) (h41 : 41 ∉ s)
    (hopen : ¬ [0xE2, 0x80, 0x9C] <:+: s) (hclose : ¬ [0xE2, 0x80, 0x9D] <:+: s) :
    scan_token (s ++ 34 :: t) true = s.length + 1 + scan_token t false := by
  induction s with
  | nil => simp [scan_token_cons]
  | cons c s ih =>
    have hc41 : c ≠ 41 := fun h => h41 (by simp [h])
    have hc34 : c ≠ 34 := fun h => h34 (by simp [h])
    have h34s : 34 ∉ s := fun h => h34 (List.mem_cons_of_mem _ h)
    have h41s : 41 ∉ s := fun h => h41 (List.mem_cons_of_mem _ h)
    have ho : ¬ [0xE2, 0x80, 0x9C] <:+: s := fun h => hopen (h.trans (List.suffix_cons c s).isInfix)
    have hcl : ¬ [0xE2, 0x80, 0x9D] <:+: s :=
      fun h => hclose (h.trans (List.suffix_cons c s).isInfix)
    have hcur : ¬ (c = 0xE2 ∧ byteAt (s ++ 34 :: t) 0 = 0x80 ∧
        (byteAt (s ++ 34 :: t) 1 = 0x9C ∨ byteAt (s ++ 34 :: t) 1 = 0x9D)) := by
      rintro ⟨h0, h1, h2⟩
      rcases s with _ | ⟨a, _ | ⟨b, s2⟩⟩
      · simp [byteAt] at h1
      · simp [byteAt] at h2
      · simp [byteAt] at h1 h2
        subst h0 h1
        rcases h2 with h2 | h2
        · exact hopen ⟨[], s2, by simp [h2]⟩
        · exact hclose ⟨[], s2, by simp [h2]⟩
    rw [List.cons_append, scan_token_cons, if_neg hc41, if_neg hc34, if_neg hcur, ih h34s h41s ho hcl]
    simp
    omega

theorem trim_whitespace_ends (a b : Nat) (m : CStr) (ha : isspace a = false)
    (hb : isspace b = false) : trim_whitespace (a :: (m ++ [b])) = a :: (m ++ [b]) := by
  unfold trim_whitespace
  simp only [List.cons_ne_nil, if_false]
  rw [List.dropWhile_cons_of_neg (by simp [ha])]
  rw [← List.cons_append, List.rdropWhile_concat_neg _ _ _ (by simp [hb])]

theorem trim_quotes_wrapped (s : CStr) :
    trim_quotes_if_present (34 :: (s ++ [34])) = s := by
  unfold trim_quotes_if_present
  have hlen : (34 :: (s ++ [34])).length = s.length + 2 := by simp
  have hlast : byteAt (34 :: (s ++ [34])) (s.length + 2 - 1) = 34 := by
    simp [byteAt, List.getD_eq_getElem?_getD]
  simp only [hlen, hlast]
  simp [byteAt]

theorem parse_fields_tail (out : InsertValues) :
    parse_fields 4 1 (cstr " j@x.com, 1, false, 5.5.2000)") out =
      { out with email_out := cstr "j@x.com", job_type_out := 1, email_verified_out := 0,
                 date_str_out := cstr "5.5.2000" } := by
  rfl

theorem isdigit_dec (n : Nat) : isdigit (48 + n % 10) = true := by
  have := Nat.mod_lt n (show 0 < 10 by decide)
  simp [isdigit]
  omega

theorem dec_digits_core_shape (fuel n : Nat) (ds : CStr) :
    ∃ pre, dec_digits_core fuel n ds = pre ++ ds ∧ (0 < fuel → pre ≠ []) ∧
      ∀ c ∈ pre, isdigit c = true := by
  induction fuel generalizing n ds with
  | zero => exact ⟨[], by simp [dec_digits_core]⟩
  | succ f ih =>
    unfold dec_digits_core
    split_ifs with h
    · exact ⟨[48 + n % 10], by simp, by simp, by simp [isdigit_dec]⟩
    · obtain ⟨pre, hp, _, hd⟩ := ih (n / 10) ((48 + n % 10) :: ds)
      refine ⟨pre ++ [48 + n % 10], by simp [hp], by simp, ?_⟩
      intro c hc
      rcases List.mem_append.mp hc with h1 | h1
      · exact hd c h1
      · simp at h1; subst h1; exact isdigit_dec n

theorem dec_digits_shape (n : Nat) :
    dec_digits n ≠ [] ∧ ∀ c ∈ dec_digits n, isdigit c = true := by
  obtain ⟨pre, hp, hne, hd⟩ := dec_digits_core_shape (n + 1) n []
  unfold dec_digits
  rw [hp, List.append_nil]
  exact ⟨hne (Nat.succ_pos n), hd⟩

theorem digitsValue_dec_core (fuel : Nat) :
    ∀ (n : Nat) (ds rest : CStr), n < fuel →
      digitsValue (dec_digits_core fuel n ds ++ rest) 0 = digitsValue (ds ++ rest) n := by
  induction fuel with
  | zero => intro n ds rest h; omega
  | succ f ih =>
    intro n ds rest h
    unfold dec_digits_core
    split_ifs with h0
    · have hn : n % 10 = n := Nat.mod_eq_of_lt (by omega)
      have hd := isdigit_dec n
      rw [hn] at hd
      simp [digitsValue, hd, hn]
    · rw [ih (n / 10) _ rest (by omega)]
      have : n / 10 * 10 + n % 10 = n := by omega
      simp [digitsValue, isdigit_dec, this]

theorem digitsValue_dec (n : Nat) (rest : CStr) (hrest : isdigit (byteAt rest 0) = false) :
    digitsValue (dec_digits n ++ rest) 0 = (n, rest) := by
  unfold dec_digits
  rw [digitsValue_dec_core (n + 1) n [] rest (Nat.lt_succ_self n)]
  rcases rest with _ | ⟨c, cs⟩
  · simp [digitsValue]
  · simp [byteAt] at hrest
    simp [digitsValue, hrest]

theorem isspace_of_isdigit (c : Nat) (h : isdigit c = true) : isspace c = false := by
  simp [isdigit, isspace] at *
  omega

theorem scan_d_printf_d (k : Int) (rest : CStr) (hrest : isdigit (byteAt rest 0) = false) :
    scan_d (printf_d k ++ rest) = some (k, rest) := by
  obtain ⟨hne, hd⟩ := dec_digits_shape k.natAbs
  obtain ⟨c, cs, hcs⟩ := List.exists_cons_of_ne_nil hne
  have hc : isdigit c = true := hd c (by simp [hcs])
  have hsp : isspace c = false := isspace_of_isdigit c hc
  have hc45 : c ≠ 45 := by rintro rfl; simp [isdigit] at hc
  have hc43 : c ≠ 43 := by rintro rfl; simp [isdigit] at hc
  have hv := digitsValue_dec k.natAbs rest hrest
  rw [hcs, List.cons_append] at hv
  unfold printf_d scan_d
  split_ifs with hk
  · have hk2 : -|k| = k := by rw [abs_of_neg hk, neg_neg]
    simp [hcs, isspace, hc, hv, hk2]
  · have hk2 : |k| = k := abs_of_nonneg (by omega)
    simp [hcs, hsp, hc45, hc43, hc, hv, hk2]

theorem delete_loop_eq_filter (k : Int) :
    ∀ (m i : Nat) (t : List Customer), t.length - i = m →
      delete_loop k i t = t.take i ++ (t.drop i).filter (fun c => decide (c.id ≠ k)) := by
  intro m
  induction m using Nat.strong_induction_on with
  | _ m ih =>
    intro i t hm
    rw [delete_loop]
    split_ifs with h hid
    · have hlen : (t.eraseIdx i).length = t.length - 1 := by
        rw [List.length_eraseIdx]; simp [h]
      rw [ih ((t.eraseIdx i).length - i) (by omega) i (t.eraseIdx i) rfl]
      rw [List.eraseIdx_eq_take_drop_succ, List.drop_eq_getElem_cons h]
      have hti : (t.take i).length = i := by simp; omega
      have h1 : List.take i (List.take i t ++ List.drop (i + 1) t) = List.take i t := by
        rw [List.take_append_of_le_length (by omega), List.take_take]; simp
      have h2 : List.drop i (List.take i t ++ List.drop (i + 1) t) = List.drop (i + 1) t := by
        rw [List.drop_append_of_le_length (by omega)]
        simp [List.drop_eq_nil_of_le, hti]
      rw [h1, h2, List.filter_cons_of_neg]
      simpa using hid
    · rw [ih (t.length - (i + 1)) (by omega) (i + 1) t rfl]
      rw [List.drop_eq_getElem_cons h, List.take_succ, List.getElem?_eq_getElem h,
        List.filter_cons_of_pos (by simpa using hid)]
      simp only [Option.toList, List.append_assoc, List.singleton_append]
    · simp [List.take_of_length_le (not_lt.mp h), List.drop_eq_nil_of_le (not_lt.mp h)]

theorem cut_at_of_clean (x suffix reject : CStr) (hx : ∀ c ∈ x, reject.contains c = false) :
    cut_at (x ++ suffix) reject = x ++ cut_at suffix reject := by
  unfold cut_at
  rw [List.takeWhile_append_of_pos]
  intro a ha
  simpa using hx a ha

theorem normalize_line (x suffix : CStr)
    (hx : ∀ c ∈ x, c ≠ 13 ∧ c ≠ 10 ∧ c ≠ 59)
    (hsuf : suffix = [] ∨ byteAt suffix 0 = 59 ∨ byteAt suffix 0 = 10 ∨ byteAt suffix 0 = 13) :
    cut_at (cut_at (x ++ suffix) [13, 10]) (cstr ";") = x := by
  have e : cstr ";" = [59] := by decide
  rw [e, cut_at_of_clean x suffix [13, 10] (by intro c hc; simp [hx c hc]),
    cut_at_of_clean x _ [59] (by intro c hc; simp [hx c hc])]
  rcases suffix with _ | ⟨b, t⟩
  · simp [cut_at]
  · simp [byteAt] at hsuf
    rcases hsuf with h | h | h <;> subst h <;> simp [cut_at]

theorem printf_d_chars (k : Int) : ∀ c ∈ printf_d k, c = 45 ∨ isdigit c = true := by
  intro c hc
  unfold printf_d at hc
  split_ifs at hc
  · rcases List.mem_cons.mp hc with h | h
    · exact Or.inl h
    · exact Or.inr ((dec_digits_shape _).2 c h)
  · exact Or.inr ((dec_digits_shape _).2 c hc)

theorem printf_d_concat (k : Int) : ∃ m b, printf_d k = m ++ [b] ∧ isdigit b = true := by
  obtain ⟨hne, hd⟩ := dec_digits_shape k.natAbs
  rcases List.eq_nil_or_concat (dec_digits k.natAbs) with h | ⟨m, b, h⟩
  · exact absurd h hne
  · have hb : isdigit b = true := hd b (by simp [h])
    unfold printf_d
    split_ifs
    · exact ⟨45 :: m, b, by simp [h], hb⟩
    · exact ⟨m, b, by simp [h], hb⟩

theorem delete_loop_absent (k : Int) (t : List Customer) (h : ∀ c ∈ t, c.id ≠ k) :
    delete_loop k 0 t = t := by
  rw [delete_loop_eq_filter k _ 0 t rfl]
  simp only [List.take_zero, List.drop_zero, List.nil_append]
  exact List.filter_eq_self.mpr (fun c hc => by simpa using h c hc)

theorem handle_delete_where_id (st : Store) (k : Int) :
    handle_delete_command st (cstr "FROM CUSTOMER WHERE id=" ++ printf_d k) =
      { st with customer_table := delete_loop k 0 st.customer_table } := by
  have e : cstr "FROM CUSTOMER WHERE id=" =
      [70, 82, 79, 77, 32, 67, 85, 83, 84, 79, 77, 69, 82, 32, 87, 72, 69, 82, 69, 32, 105, 100, 61] := by
    decide
  have e2 : cstr "WHERE id=" = [87, 72, 69, 82, 69, 32, 105, 100, 61] := by decide
  have e3 : cstr "WHERE" = [87, 72, 69, 82, 69] := by decide
  have e4 : cstr "id=" = [105, 100, 61] := by decide
  have hs := scan_d_printf_d k [] (by decide)
  rw [List.append_nil] at hs
  unfold handle_delete_command
  rw [e, e2]
  simp [strstr, sscanf_where_id, scan_lit, scan_ws, e3, e4, isspace, hs]

theorem process_line_delete (st : Store) (k : Int) (suffix : CStr)
    (hsuf : suffix = [] ∨ byteAt suffix 0 = 59 ∨ byteAt suffix 0 = 10 ∨ byteAt suffix 0 = 13) :
    process_line st (cstr "DELETE FROM CUSTOMER WHERE id=" ++ printf_d k ++ suffix) =
      some ({ st with customer_table := delete_loop k 0 st.customer_table },
        print_separator_and_table_to_file
          { st with customer_table := delete_loop k 0 st.customer_table } 0 none) := by
  have e : cstr "DELETE FROM CUSTOMER WHERE id=" =
      68 :: ([69, 76, 69, 84, 69] ++ 32 :: cstr "FROM CUSTOMER WHERE id=") := by decide
  obtain ⟨m, b, hmb, hb⟩ := printf_d_concat k
  have hclean : ∀ c ∈ cstr "DELETE FROM CUSTOMER WHERE id=" ++ printf_d k,
      c ≠ 13 ∧ c ≠ 10 ∧ c ≠ 59 := by
    intro c hc
    rcases List.mem_append.mp hc with h | h
    · have hP : ∀ c ∈ cstr "DELETE FROM CUSTOMER WHERE id=", c ≠ 13 ∧ c ≠ 10 ∧ c ≠ 59 := by
        decide
      exact hP c h
    · rcases printf_d_chars k c h with h1 | h1
      · subst h1; decide
      · simp [isdigit] at h1; omega
  unfold process_line
  rw [List.append_assoc, ← List.append_assoc,  normalize_line _ suffix hclean hsuf]
  have htrim : trim_whitespace (cstr "DELETE FROM CUSTOMER WHERE id=" ++ printf_d k) =
      cstr "DELETE FROM CUSTOMER WHERE id=" ++ printf_d k := by
    rw [e, hmb, List.cons_append, ← List.append_assoc]
    exact trim_whitespace_ends 68 b _ (by decide) (isspace_of_isdigit b hb)
  rw [htrim]
  have hstrchr : strchr (cstr "DELETE FROM CUSTOMER WHERE id=" ++ printf_d k) 32 =
      some (32 :: (cstr "FROM CUSTOMER WHERE id=" ++ printf_d k)) := by
    rw [e]
    simp [strchr]
  have hlen : (cstr "DELETE FROM CUSTOMER WHERE id=" ++ printf_d k).length -
      (32 :: (cstr "FROM CUSTOMER WHERE id=" ++ printf_d k)).length = 6 := by
    rw [e]
    simp
  have htake : (cstr "DELETE FROM CUSTOMER WHERE id=" ++ printf_d k).take 6 = cstr "DELETE" := by
    rw [e]
    simp
    decide
  have hparams : ((32 :: (cstr "FROM CUSTOMER WHERE id=" ++ printf_d k)).drop 1).dropWhile isspace
      = cstr "FROM CUSTOMER WHERE id=" ++ printf_d k := by
    have e5 : cstr "FROM CUSTOMER WHERE id=" = 70 :: cstr "ROM CUSTOMER WHERE id=" := by decide
    rw [e5]
    simp [isspace]
  have hne : (cstr "DELETE FROM CUSTOMER WHERE id=" ++ printf_d k).length ≠ 0 := by
    rw [e]; simp
  rw [if_neg hne]
  simp only [hstrchr, hlen, htake, hparams]
  have hsw : starts_with (cstr "FROM CUSTOMER WHERE id=" ++ printf_d k) (cstr "FROM CUSTOMER")
      = true := by
    have e6 : cstr "FROM CUSTOMER WHERE id=" = cstr "FROM CUSTOMER" ++ cstr " WHERE id=" := by
      decide
    rw [e6, List.append_assoc]
    unfold starts_with
    rw [List.isPrefixOf_iff_prefix]
    exact List.prefix_append _ _
  have hd1 : ¬ (cstr "DELETE" = cstr "INSERT") := by decide
  unfold dispatch
  simp only [hd1, false_and, if_false, hsw, and_self, if_true, handle_delete_where_id]
  simp

theorem find_customer_some (t : List Customer) (k : Int) (i : Nat) (d : Customer)
    (h : find_customer t k = some i) :
    ∃ hi : i < t.length, t.getD i d = t[i] ∧ t[i].id = k := by
  induction t generalizing i with
  | nil => simp [find_customer] at h
  | cons c cs ih =>
    unfold find_customer at h
    split_ifs at h with hc
    · simp at h
      subst h
      exact ⟨by simp, by simp, hc⟩
    · rcases hf : find_customer cs k with _ | j
      · simp [hf] at h
      · simp [hf] at h
        subst h
        obtain ⟨hj, h1, h2⟩ := ih j hf
        exact ⟨by simp; omega, by simpa using h1, by simpa using h2⟩

theorem find_customer_none (t : List Customer) (k : Int) (h : ∀ c ∈ t, c.id ≠ k) :
    find_customer t k = none := by
  induction t with
  | nil => rfl
  | cons c cs ih =>
    unfold find_customer
    rw [if_neg (h c (by simp)), ih (fun x hx => h x (List.mem_cons_of_mem _ hx))]
    rfl

theorem handle_update_command_some (st st1 : Store) (params : CStr) (r : Int)
    (h : handle_update_command st params = some (r, st1)) :
    st1 = st ∨ ∃ (i : Nat) (save : CStr) (hi : i < st.customer_table.length),
      st1 = { st with customer_table :=
        st.customer_table.set i (set_loop save (st.customer_table.get ⟨i, hi⟩)) } := by
  unfold handle_update_command at h
  split at h
  · split_ifs at h
    · simp at h; exact Or.inl h.2.symm
    · split at h
      · simp at h; exact Or.inl h.2.symm
      · split at h
        · simp at h; exact Or.inl h.2.symm
        · rename_i i hf
          obtain ⟨hi, h1, _⟩ := find_customer_some _ _ i
            { id := 0, name := [], mail := [], job_type := 0, email_verified := 0,
              date_of_birth := zero_date } hf
          simp only [Option.some.injEq, Prod.mk.injEq] at h
          rw [h1] at h
          exact Or.inr ⟨i, _, hi, h.2.symm⟩
  · simp at h; exact Or.inl h.2.symm

theorem set_loop_preserves (Q : Customer → Prop)
    (hQ : ∀ (tok : CStr) (t : Customer), Q t → Q (apply_set_item tok t)) :
    ∀ (save : CStr) (t : Customer), Q t → Q (set_loop save t) := by
  intro save t
  induction save, t using set_loop.induct with
  | case1 save t _ h =>
    intro ht
    rw [set_loop]
    split
    · exact ht
    · rename_i h2; rw [h] at h2; simp at h2
  | case2 save t tok save1 h ih =>
    intro ht
    rw [set_loop]
    split
    · rename_i h2; rw [h] at h2; simp at h2
    · rename_i tok2 save2 h2
      rw [h] at h2
      simp only [Prod.mk.injEq, Option.some.injEq] at h2
      rw [← h2.1, ← h2.2]
      exact ih (hQ tok t ht)

theorem dispatch_cases (st st1 : Store) (command_type params out : CStr)
    (h : dispatch st command_type params = some (st1, out)) :
    st1 = st ∨ (∃ p, st1 = handle_insert_command st p) ∨
      (∃ p, st1 = handle_delete_command st p) ∨
      (∃ p r, handle_update_command st p = some (r, st1)) ∨
      st1 = handle_truncate_command st := by
  unfold dispatch at h
  split_ifs at h
  · simp at h; exact Or.inr (Or.inl ⟨_, h.1.symm⟩)
  · simp at h; exact Or.inr (Or.inr (Or.inl ⟨_, h.1.symm⟩))
  · split at h
    · simp at h
    · rename_i r st2 hu
      simp at h
      rw [h.1] at hu
      exact Or.inr (Or.inr (Or.inr (Or.inl ⟨_, _, hu⟩)))
  · simp at h; exact Or.inr (Or.inr (Or.inr (Or.inr h.1.symm)))
  · simp at h; exact Or.inl h.1.symm

theorem process_line_cases (st st1 : Store) (line out : CStr)
    (h : process_line st line = some (st1, out)) :
    st1 = st ∨ (∃ p, st1 = handle_insert_command st p) ∨
      (∃ p, st1 = handle_delete_command st p) ∨
      (∃ p r, handle_update_command st p = some (r, st1)) ∨
      st1 = handle_truncate_command st := by
  unfold process_line at h
  simp only at h
  split_ifs at h
  · simp at h; exact Or.inl h.1.symm
  · split at h
    · split_ifs at h
      exact dispatch_cases _ _ _ _ _ h
    · exact dispatch_cases _ _ _ _ _ h

theorem reachable_invariant (P : Store → Prop) (h0 : P initial_store)
    (hload : ∀ st line, P st → P (load_line st line))
    (hline : ∀ st line st1 out, P st → process_line st line = some (st1, out) → P st1) :
    ∀ st, Reachable st → P st := by
  have hseed : ∀ (seed : List CStr) (st : Store), P st → P (load_initial_data st seed) := by
    intro seed
    induction seed with
    | nil => intro st h; exact h
    | cons l ls ih => intro st h; exact ih _ (hload st l h)
  have hcmds : ∀ (cmds : List CStr) (st st1 : Store) (out : CStr), P st →
      process_commands st cmds = some (st1, out) → P st1 := by
    intro cmds
    induction cmds with
    | nil =>
      intro st st1 out h hp
      simp [process_commands] at hp
      rw [← hp.1]; exact h
    | cons l ls ih =>
      intro st st1 out h hp
      unfold process_commands at hp
      split at hp
      · simp at hp
      · rename_i st2 out2 h2
        split at hp
        · simp at hp
        · rename_i st3 out3 h3
          simp at hp
          rw [← hp.1]
          exact ih st2 st3 out3 (hline st l st2 out2 h h2) h3
  rintro st ⟨seed, cmds, out, h⟩
  exact hcmds cmds _ st out (hseed seed _ h0) h

theorem int_to_job_type_range (v : Int) : 0 ≤ int_to_job_type v ∧ int_to_job_type v < 8 := by
  unfold int_to_job_type JOB_TYPE_COUNT
  split_ifs with h
  · exact h
  · decide

theorem add_customer_record_table (st : Store) (c : Customer) :
    (add_customer_record st c).customer_table = st.customer_table ++ [c] ∧
    (add_customer_record st c).next_customer_id = st.next_customer_id := by
  unfold add_customer_record ensure_table_capacity
  split_ifs <;> simp

theorem load_line_appends (st : Store) (line : CStr) :
    ∃ c : Customer,
      load_line st line =
        add_customer_record { st with next_customer_id := st.next_customer_id + 1 } c ∧
      c.id = st.next_customer_id ∧ 0 ≤ c.job_type ∧ c.job_type < 8 := by
  refine ⟨_, rfl, rfl, ?_⟩
  simp only
  split
  · split_ifs
    · exact int_to_job_type_range _
    · decide
  · decide

theorem handle_insert_command_appends (st : Store) (params : CStr) :
    handle_insert_command st params = st ∨
    ∃ c : Customer,
      handle_insert_command st params =
        add_customer_record { st with next_customer_id := st.next_customer_id + 1 } c ∧
      c.id = st.next_customer_id ∧ 0 ≤ c.job_type ∧ c.job_type < 8 := by
  unfold handle_insert_command
  split
  · exact Or.inl rfl
  · exact Or.inr ⟨_, rfl, rfl, int_to_job_type_range _⟩

theorem handle_delete_command_filter (st : Store) (params : CStr) :
    ∃ p : Customer → Bool,
      handle_delete_command st params =
        { st with customer_table := st.customer_table.filter p } := by
  unfold handle_delete_command
  split
  · exact ⟨fun _ => true, by simp⟩
  · split
    · rename_i k _
      exact ⟨fun c => decide (c.id ≠ k), by
        rw [delete_loop_eq_filter k _ 0 _ rfl]; simp⟩
    · exact ⟨fun _ => true, by simp⟩

theorem apply_set_item_id (tok : CStr) (t : Customer) : (apply_set_item tok t).id = t.id := by
  unfold apply_set_item
  simp only
  split
  · split_ifs <;> rfl
  · rfl

theorem apply_set_item_job_type (tok : CStr) (t : Customer)
    (h : 0 ≤ t.job_type ∧ t.job_type < 8) :
    0 ≤ (apply_set_item tok t).job_type ∧ (apply_set_item tok t).job_type < 8 := by
  unfold apply_set_item
  simp only
  split
  · split_ifs <;> first | exact h | exact int_to_job_type_range _
  · exact h

theorem map_id_set (t : List Customer) (i : Nat) (c : Customer) (hi : i < t.length)
    (hc : c.id = (t.get ⟨i, hi⟩).id) :
    (t.set i c).map Customer.id = t.map Customer.id := by
  induction t generalizing i with
  | nil => simp
  | cons a as ih =>
    cases i with
    | zero => simpa using hc
    | succ j =>
      simp only [List.set_cons_succ, List.map_cons, List.cons.injEq, true_and]
      exact ih j (by simpa using hi) (by simpa using hc)

theorem IdsFresh_add (st : Store) (c : Customer) (h : IdsFresh st)
    (hc : c.id = st.next_customer_id) :
    IdsFresh (add_customer_record { st with next_customer_id := st.next_customer_id + 1 } c) := by
  obtain ⟨ht, hn⟩ := add_customer_record_table
    { st with next_customer_id := st.next_customer_id + 1 } c
  unfold IdsFresh
  rw [ht, hn]
  constructor
  · intro x hx
    rcases List.mem_append.mp hx with h1 | h1
    · have := h.1 x h1
      simp only
      omega
    · simp at h1
      subst h1
      simp only
      omega
  · rw [List.map_append, List.nodup_append]
    refine ⟨h.2, by simp, ?_⟩
    intro a ha hb
    simp at hb
    obtain ⟨x, hx, hxa⟩ := List.mem_map.mp ha
    have := h.1 x hx
    omega

theorem IdsFresh_process_line (st st1 : Store) (line out : CStr) (h : IdsFresh st)
    (hp : process_line st line = some (st1, out)) : IdsFresh st1 := by
  rcases process_line_cases st st1 line out hp with h1 | ⟨p, h1⟩ | ⟨p, h1⟩ | ⟨p, r, h1⟩ | h1
  · rw [h1]; exact h
  · rcases handle_insert_command_appends st p with h2 | ⟨c, h2, hc, _⟩
    · rw [h1, h2]; exact h
    · rw [h1, h2]; exact IdsFresh_add st c h hc
  · obtain ⟨q, hq⟩ := handle_delete_command_filter st p
    rw [h1, hq]
    exact ⟨fun c hc => h.1 c (List.mem_of_mem_filter hc),
      h.2.sublist ((List.filter_sublist _).map _)⟩
  · rcases handle_update_command_some st st1 p r h1 with h2 | ⟨i, save, hi, h2⟩
    · rw [h2]; exact h
    · have hid : (set_loop save (st.customer_table.get ⟨i, hi⟩)).id
          = (st.customer_table.get ⟨i, hi⟩).id :=
        set_loop_preserves (fun t => t.id = (st.customer_table.get ⟨i, hi⟩).id)
          (fun tok t ht => (apply_set_item_id tok t).trans ht) save _ rfl
      rw [h2]
      constructor
      · intro c hc
        rcases List.mem_or_eq_of_mem_set hc with h3 | h3
        · exact h.1 c h3
        · rw [h3, hid]
          exact h.1 _ (List.get_mem _ _ _)
      · simp only
        rw [map_id_set _ i _ hi hid]
        exact h.2
  · rw [h1]
    exact ⟨by simp [handle_truncate_command], by simp [handle_truncate_command]⟩

theorem JobTypesValid_add (st : Store) (c : Customer) (h : JobTypesValid st)
    (hc : 0 ≤ c.job_type ∧ c.job_type < 8) :
    JobTypesValid
      (add_customer_record { st with next_customer_id := st.next_customer_id + 1 } c) := by
  obtain ⟨ht, _⟩ := add_customer_record_table
    { st with next_customer_id := st.next_customer_id + 1 } c
  unfold JobTypesValid
  rw [ht]
  intro x hx
  rcases List.mem_append.mp hx with h1 | h1
  · exact h x h1
  · simp at h1
    subst h1
    exact hc

theorem JobTypesValid_process_line (st st1 : Store) (line out : CStr) (h : JobTypesValid st)
    (hp : process_line st line = some (st1, out)) : JobTypesValid st1 := by
  rcases process_line_cases st st1 line out hp with h1 | ⟨p, h1⟩ | ⟨p, h1⟩ | ⟨p, r, h1⟩ | h1
  · rw [h1]; exact h
  · rcases handle_insert_command_appends st p with h2 | ⟨c, h2, _, hc⟩
    · rw [h1, h2]; exact h
    · rw [h1, h2]; exact JobTypesValid_add st c h hc
  · obtain ⟨q, hq⟩ := handle_delete_command_filter st p
    rw [h1, hq]
    exact fun c hc => h c (List.mem_of_mem_filter hc)
  · rcases handle_update_command_some st st1 p r h1 with h2 | ⟨i, save, hi, h2⟩
    · rw [h2]; exact h
    · rw [h2]
      intro c hc
      rcases List.mem_or_eq_of_mem_set hc with h3 | h3
      · exact h c h3
      · rw [h3]
        exact set_loop_preserves (fun t => 0 ≤ t.job_type ∧ t.job_type < 8)
          apply_set_item_job_type save _ (h _ (List.get_mem _ _ _))
  · rw [h1]
    intro c hc
    simp [handle_truncate_command] at hc

theorem dec_digits_core_length (fuel : Nat) :
    ∀ (n e : Nat) (ds : CStr), 0 < e → n < 10 ^ e →
      (dec_digits_core fuel n ds).length ≤ e + ds.length := by
  induction fuel with
  | zero => intro n e ds he hn; simp [dec_digits_core]
  | succ f ih =>
    intro n e ds he hn
    unfold dec_digits_core
    split_ifs with h0
    · simp; omega
    · have h10 : 10 ≤ n := by omega
      have he2 : 2 ≤ e := by
        by_contra hlt
        have : e = 1 := by omega
        subst this
        simp at hn
        omega
      have hdiv : n / 10 < 10 ^ (e - 1) := by
        have hpow : 10 ^ e = 10 ^ (e - 1) * 10 := by
          rw [← pow_succ]
          congr 1
          omega
        rw [hpow] at hn
        exact Nat.div_lt_of_lt_mul (by rw [Nat.mul_comm]; exact hn)
      have := ih (n / 10) (e - 1) ((48 + n % 10) :: ds) (by omega) hdiv
      simp at this
      omega

theorem printf_d_length (v : Int) (hv : -2147483648 ≤ v ∧ v ≤ 2147483647) :
    (printf_d v).length ≤ 11 := by
  have hn : v.natAbs < 10 ^ 10 := by omega
  have := dec_digits_core_length (v.natAbs + 1) v.natAbs 10 [] (by decide) hn
  unfold printf_d dec_digits
  split_ifs <;> simp at * <;> omega

theorem atoi_printf_d (v : Int) : atoi (printf_d v) = v := by
  obtain ⟨hne, hd⟩ := dec_digits_shape v.natAbs
  obtain ⟨c, cs, hcs⟩ := List.exists_cons_of_ne_nil hne
  have hc : isdigit c = true := hd c (by simp [hcs])
  have hsp : isspace c = false := isspace_of_isdigit c hc
  have hc45 : c ≠ 45 := by rintro rfl; simp [isdigit] at hc
  have hc43 : c ≠ 43 := by rintro rfl; simp [isdigit] at hc
  have hv := digitsValue_dec v.natAbs [] (by decide)
  rw [List.append_nil] at hv
  unfold printf_d atoi
  split_ifs with hk
  · have hk2 : -|v| = v := by rw [abs_of_neg hk, neg_neg]
    have h45 : isspace 45 = false := by decide
    simp [h45, hv, hk2]
  · have hk2 : |v| = v := abs_of_nonneg (by omega)
    rw [hcs] at hv ⊢
    simp only [List.dropWhile_cons_of_neg (show ¬ isspace c = true by simp [hsp])]
    split
    · rename_i heq; simp at heq; exact absurd heq.1 hc45
    · rename_i heq; simp at heq; exact absurd heq.1 hc43
    · simp [hv, hk2]

theorem scan_token_plain (s t : CStr) (q : Bool)
    (hs : ∀ c ∈ s, c ≠ 41 ∧ c ≠ 34 ∧ c ≠ 0xE2 ∧ c ≠ 44) :
    scan_token (s ++ t) q = s.length + scan_token t q := by
  induction s with
  | nil => simp
  | cons c s ih =>
    obtain ⟨h1, h2, h3, h4⟩ := hs c (by simp)
    rw [List.cons_append, scan_token_cons, if_neg h1, if_neg h2, if_neg (by simp [h3]),
      if_neg (by simp [h4]), ih (fun x hx => hs x (List.mem_cons_of_mem _ hx))]
    simp
    omega

theorem scan_token_comma (t : CStr) : scan_token (44 :: t) false = 0 := by
  rw [scan_token_cons]
  simp

theorem parse_fields_step (left field_index : Nat) (tok rest : CStr) (out : InsertValues)
    (hs : ∀ c ∈ tok, c ≠ 41 ∧ c ≠ 34 ∧ c ≠ 0xE2 ∧ c ≠ 44 ∧ c ≠ 0)
    (hne : tok ≠ []) (hlen : tok.length < 150) :
    parse_fields (left + 1) field_index (tok ++ 44 :: rest) out =
      parse_fields left (field_index + 1) rest
        (if (trim_quotes_if_present (trim_whitespace tok)).length > 0 then
          store_field field_index (trim_quotes_if_present (trim_whitespace tok)) out
        else out) := by
  obtain ⟨c, cs, hcs⟩ := List.exists_cons_of_ne_nil hne
  have hc := hs c (by simp [hcs])
  have hscan : scan_token (tok ++ 44 :: rest) false = tok.length := by
    rw [scan_token_plain tok _ false (fun x hx => ⟨(hs x hx).1, (hs x hx).2.1, (hs x hx).2.2.1,
      (hs x hx).2.2.2.1⟩), scan_token_comma]
    rfl
  have hb : ¬ (byteAt (tok ++ 44 :: rest) 0 = 0 ∨ byteAt (tok ++ 44 :: rest) 0 = 41) := by
    rw [hcs]
    simp [byteAt]
    exact ⟨hc.2.2.2.2, hc.1⟩
  have htl : (if tok.length ≥ MAX_FIELD_LEN then MAX_FIELD_LEN - 1 else tok.length)
      = tok.length := if_neg (by simp [MAX_FIELD_LEN]; omega)
  rw [parse_fields, if_neg hb]
  simp only [hscan, htl, List.take_left', List.drop_left', byteAt, List.getD_cons_zero,
    if_true, List.drop_succ_cons, List.drop_zero]

theorem process_commands_snoc (cmds : List CStr) :
    ∀ (st0 st st1 : Store) (out o : CStr) (l : CStr),
      process_commands st0 cmds = some (st, out) → process_line st l = some (st1, o) →
      process_commands st0 (cmds ++ [l]) = some (st1, out ++ o) := by
  induction cmds with
  | nil =>
    intro st0 st st1 out o l h hl
    simp [process_commands] at h
    obtain ⟨h1, h2⟩ := h
    subst h1 h2
    simp [process_commands, hl]
  | cons c cs ih =>
    intro st0 st st1 out o l h hl
    simp only [List.cons_append, process_commands] at h ⊢
    rcases hc : process_line st0 c with _ | ⟨st2, out2⟩
    · simp [hc] at h
    · simp only [hc] at h ⊢
      rcases hcs : process_commands st2 cs with _ | ⟨st3, out3⟩
      · simp [hcs] at h
      · simp only [hcs, Option.some.injEq, Prod.mk.injEq] at h
        obtain ⟨h1, h2⟩ := h
        subst h1 h2
        have := ih st2 st3 st1 out3 o l hcs hl
        rw [show cs.append [l] = cs ++ [l] from rfl, this]
        simp

theorem reachable_step (st st1 : Store) (l o : CStr) (h : Reachable st)
    (hl : process_line st l = some (st1, o)) : Reachable st1 := by
  obtain ⟨seed, cmds, out, hc⟩ := h
  exact ⟨seed, cmds ++ [l], out ++ o, process_commands_snoc cmds _ st st1 out o l hc hl⟩

theorem trim_whitespace_after_space (s : CStr) (hne : s ≠ [])
    (hs : ∀ c ∈ s, isspace c = false) : trim_whitespace (32 :: s) = s := by
  obtain ⟨c, cs, hcs⟩ := List.exists_cons_of_ne_nil hne
  have hc : isspace c = false := hs c (by simp [hcs])
  unfold trim_whitespace
  simp only [List.cons_ne_nil, if_false]
  rw [List.dropWhile_cons_of_pos (by decide), hcs, List.dropWhile_cons_of_neg (by simp [hc]),
    ← hcs, List.rdropWhile_eq_self_iff]
  intro hl
  simp [hs _ (List.getLast_mem hl)]

theorem trim_quotes_unquoted (s : CStr) (h1 : byteAt s 0 ≠ 34) (h2 : byteAt s 0 ≠ 0xE2) :
    trim_quotes_if_present s = s := by
  unfold trim_quotes_if_present
  simp [h1, h2]

theorem printf_d_head (v : Int) :
    printf_d v ≠ [] ∧ (byteAt (printf_d v) 0 = 45 ∨ isdigit (byteAt (printf_d v) 0) = true) := by
  obtain ⟨hne, hd⟩ := dec_digits_shape v.natAbs
  obtain ⟨c, cs, hcs⟩ := List.exists_cons_of_ne_nil hne
  have hc : isdigit c = true := hd c (by simp [hcs])
  unfold printf_d
  split_ifs
  · simp [byteAt]
  · simp [hcs, byteAt, hc]

theorem robust_parse_number_in_fourth (v : Int) (hv : -2147483648 ≤ v ∧ v ≤ 2147483647) :
    robust_parse_insert_values
        (some (cstr "(A, a@x.com, 0, " ++ printf_d v ++ cstr ", 1.1.2000)")) =
      { name_out := cstr "A", email_out := cstr "a@x.com", job_type_out := 0,
        email_verified_out := v, date_str_out := cstr "1.1.2000" } := by
  have e1 : cstr "(A, a@x.com, 0, " =
      40 :: (cstr "A" ++ 44 :: (cstr " a@x.com" ++ 44 :: (cstr " 0" ++ 44 :: [32]))) := by decide
  have e2 : cstr ", 1.1.2000)" = 44 :: cstr " 1.1.2000)" := by decide
  have hlen := printf_d_length v hv
  obtain ⟨hne, hhead⟩ := printf_d_head v
  have hchars := printf_d_chars v
  have hplain : ∀ c ∈ 32 :: printf_d v, c ≠ 41 ∧ c ≠ 34 ∧ c ≠ 0xE2 ∧ c ≠ 44 ∧ c ≠ 0 := by
    intro c hc
    rcases List.mem_cons.mp hc with h | h
    · subst h; decide
    · rcases hchars c h with h1 | h1
      · subst h1; decide
      · simp [isdigit] at h1; omega
  have hnosp : ∀ c ∈ printf_d v, isspace c = false := by
    intro c hc
    rcases hchars c hc with h1 | h1
    · subst h1; decide
    · exact isspace_of_isdigit c h1
  have hq1 : byteAt (printf_d v) 0 ≠ 34 := by
    rcases hhead with h | h
    · rw [h]; decide
    · intro h2; rw [h2] at h; simp [isdigit] at h
  have hq2 : byteAt (printf_d v) 0 ≠ 0xE2 := by
    rcases hhead with h | h
    · rw [h]; decide
    · intro h2; rw [h2] at h; simp [isdigit] at h
  have hpos : 0 < (printf_d v).length := List.length_pos.mpr hne
  have hl3 : (cstr " 1.1.2000)").length = 10 := by decide
  have hl4 : (cstr "A").length = 1 := by decide
  have hl5 : (cstr " a@x.com").length = 8 := by decide
  have hl6 : (cstr " 0").length = 2 := by decide
  have htail : ∀ out : InsertValues, parse_fields 1 4 (cstr " 1.1.2000)") out =
      { out with date_str_out := cstr "1.1.2000" } := fun _ => rfl
  unfold robust_parse_insert_values
  rw [e1, e2]
  simp only [List.cons_append, List.append_assoc, List.nil_append, List.singleton_append]
  rw [if_neg (by simp), List.take_of_length_le (by
    simp [hl3, hl4, hl5, hl6, MAX_LINE_LEN]; omega)]
  rw [if_pos (by simp [byteAt])]
  simp only [List.drop_succ_cons, List.drop_zero]
  rw [show (5 : Nat) = 4 + 1 from rfl, parse_fields_step 4 0 (cstr "A") _ _ (by decide)
    (by decide) (by decide)]
  rw [show (4 : Nat) = 3 + 1 from rfl, parse_fields_step 3 _ (cstr " a@x.com") _ _ (by decide)
    (by decide) (by decide)]
  rw [show (3 : Nat) = 2 + 1 from rfl, parse_fields_step 2 _ (cstr " 0") _ _ (by decide)
    (by decide) (by decide)]
  rw [← List.cons_append, show (2 : Nat) = 1 + 1 from rfl,
    parse_fields_step 1 _ (32 :: printf_d v) _ _ hplain (by simp) (by simp; omega)]
  rw [htail, trim_whitespace_after_space _ hne hnosp, trim_quotes_unquoted _ hq1 hq2]
  simp only [gt_iff_lt, hpos, if_true]
  have h1 : trim_quotes_if_present (trim_whitespace (cstr "A")) = cstr "A" := by decide
  have h2 : trim_quotes_if_present (trim_whitespace (cstr " a@x.com")) = cstr "a@x.com" := by
    decide
  have h3 : trim_quotes_if_present (trim_whitespace (cstr " 0")) = cstr "0" := by decide
  rw [h1, h2, h3]
  have h4 : atoi (cstr "0") = 0 := by decide
  simp [store_field, atoi_printf_d, h4, hl4, MAX_NAME_LEN, MAX_EMAIL_LEN]
  decide

theorem handle_insert_number_in_fourth (st : Store) (v : Int)
    (hv : -2147483648 ≤ v ∧ v ≤ 2147483647) :
    handle_insert_command st (cstr "(A, a@x.com, 0, " ++ printf_d v ++ cstr ", 1.1.2000)") =
      add_customer_record { st with next_customer_id := st.next_customer_id + 1 }
        { id := st.next_customer_id, name := cstr "A", mail := cstr "a@x.com", job_type := 0,
          email_verified := v, date_of_birth := { day := 1, month := 1, year := 2000 } } := by
  have e1 : cstr "(A, a@x.com, 0, " = 40 :: cstr "A, a@x.com, 0, " := by decide
  have hs : strchr (cstr "(A, a@x.com, 0, " ++ printf_d v ++ cstr ", 1.1.2000)") 40 =
      some (cstr "(A, a@x.com, 0, " ++ printf_d v ++ cstr ", 1.1.2000)") := by
    rw [e1]
    simp [strchr]
  have hd : parse_date (some (cstr "1.1.2000")) zero_date = { day := 1, month := 1, year := 2000 } := by
    decide
  unfold handle_insert_command
  rw [hs]
  simp only [robust_parse_number_in_fourth v hv, hd]
  rfl

theorem process_line_insert_number (st : Store) (v : Int) :
    process_line st
        (cstr "INSERT INTO CUSTOMER (A, a@x.com, 0, " ++ printf_d v ++ cstr ", 1.1.2000);") =
      some (handle_insert_command st
          (cstr "(A, a@x.com, 0, " ++ printf_d v ++ cstr ", 1.1.2000)"),
        print_separator_and_table_to_file (handle_insert_command st
          (cstr "(A, a@x.com, 0, " ++ printf_d v ++ cstr ", 1.1.2000)")) 0 none) := by
  have e : cstr "INSERT INTO CUSTOMER (A, a@x.com, 0, " =
      73 :: ([78, 83, 69, 82, 84] ++ 32 :: (cstr "INTO CUSTOMER" ++ 32 :: cstr "(A, a@x.com, 0, ")) := by
    decide
  have e2 : cstr ", 1.1.2000);" = cstr ", 1.1.2000" ++ [41] ++ [59] := by decide
  have e3 : cstr ", 1.1.2000)" = cstr ", 1.1.2000" ++ [41] := by decide
  have e4 : cstr "(A, a@x.com, 0, " = 40 :: cstr "A, a@x.com, 0, " := by decide
  have hclean : ∀ c ∈ cstr "INSERT INTO CUSTOMER (A, a@x.com, 0, " ++ printf_d v ++
      (cstr ", 1.1.2000" ++ [41]), c ≠ 13 ∧ c ≠ 10 ∧ c ≠ 59 := by
    intro c hc
    rcases List.mem_append.mp hc with h | h
    · rcases List.mem_append.mp h with h | h
      · have hP : ∀ c ∈ cstr "INSERT INTO CUSTOMER (A, a@x.com, 0, ", c ≠ 13 ∧ c ≠ 10 ∧ c ≠ 59 := by
          decide
        exact hP c h
      · rcases printf_d_chars v c h with h1 | h1
        · subst h1; decide
        · simp [isdigit] at h1; omega
    · have hP : ∀ c ∈ cstr ", 1.1.2000" ++ [41], c ≠ 13 ∧ c ≠ 10 ∧ c ≠ 59 := by decide
      exact hP c h
  set V := cstr "(A, a@x.com, 0, " ++ printf_d v ++ cstr ", 1.1.2000)" with hV
  have hline : cstr "INSERT INTO CUSTOMER (A, a@x.com, 0, " ++ printf_d v ++ cstr ", 1.1.2000);"
      = (cstr "INSERT INTO CUSTOMER (A, a@x.com, 0, " ++ printf_d v ++
          (cstr ", 1.1.2000" ++ [41])) ++ [59] := by
    rw [e2]; simp
  have hX : cstr "INSERT INTO CUSTOMER (A, a@x.com, 0, " ++ printf_d v ++
      (cstr ", 1.1.2000" ++ [41]) =
      73 :: (([78, 83, 69, 82, 84] ++ 32 :: (cstr "INTO CUSTOMER" ++ 32 :: cstr "(A, a@x.com, 0, ")
        ++ printf_d v ++ cstr ", 1.1.2000") ++ [41]) := by
    rw [e]; simp
  have hX2 : cstr "INSERT INTO CUSTOMER (A, a@x.com, 0, " ++ printf_d v ++
      (cstr ", 1.1.2000" ++ [41]) =
      cstr "INSERT" ++ 32 :: (cstr "INTO CUSTOMER" ++ 32 :: V) := by
    rw [e, hV, e3]
    have : cstr "INSERT" = [73, 78, 83, 69, 82, 84] := by decide
    rw [this]; simp
  unfold process_line
  rw [hline, normalize_line _ [59] hclean (by simp [byteAt])]
  have htrim : trim_whitespace (cstr "INSERT INTO CUSTOMER (A, a@x.com, 0, " ++ printf_d v ++
      (cstr ", 1.1.2000" ++ [41])) = cstr "INSERT" ++ 32 :: (cstr "INTO CUSTOMER" ++ 32 :: V) := by
    rw [← hX2, hX]
    exact trim_whitespace_ends 73 41 _ (by decide) (by decide)
  rw [htrim]
  have hstrchr : strchr (cstr "INSERT" ++ 32 :: (cstr "INTO CUSTOMER" ++ 32 :: V)) 32 =
      some (32 :: (cstr "INTO CUSTOMER" ++ 32 :: V)) := by
    have : cstr "INSERT" = [73, 78, 83, 69, 82, 84] := by decide
    rw [this]
    simp [strchr]
  have hlen : (cstr "INSERT" ++ 32 :: (cstr "INTO CUSTOMER" ++ 32 :: V)).length -
      (32 :: (cstr "INTO CUSTOMER" ++ 32 :: V)).length = 6 := by
    have : (cstr "INSERT").length = 6 := by decide
    simp [this]
  have htake : (cstr "INSERT" ++ 32 :: (cstr "INTO CUSTOMER" ++ 32 :: V)).take 6 = cstr "INSERT" := by
    have : (cstr "INSERT").length = 6 := by decide
    exact List.take_left' this
  have hparams : ((32 :: (cstr "INTO CUSTOMER" ++ 32 :: V)).drop 1).dropWhile isspace
      = cstr "INTO CUSTOMER" ++ 32 :: V := by
    have : cstr "INTO CUSTOMER" = 73 :: cstr "NTO CUSTOMER" := by decide
    rw [this]
    simp [isspace]
  have hne : (cstr "INSERT" ++ 32 :: (cstr "INTO CUSTOMER" ++ 32 :: V)).length ≠ 0 := by simp
  rw [if_neg hne]
  simp only [hstrchr, hlen, htake, hparams]
  have hsw : starts_with (cstr "INTO CUSTOMER" ++ 32 :: V) (cstr "INTO CUSTOMER") = true := by
    unfold starts_with
    rw [List.isPrefixOf_iff_prefix]
    exact List.prefix_append _ _
  have hactual : ((cstr "INTO CUSTOMER" ++ 32 :: V).drop (cstr "INTO CUSTOMER").length).dropWhile
      isspace = V := by
    rw [List.drop_left' rfl, hV, e4]
    simp [isspace]
  unfold dispatch
  simp only [hsw, and_self, if_true, hactual]
  simp

theorem example_store_reachable : Reachable example_store :=
  ⟨[cstr "Bob,bob@x.com,2,1,1.1.2000" ++ [10]],
   [cstr "INSERT INTO CUSTOMER (Alice, alice@x.com, 9, 1, 1.2.1990);" ++ [10]],
   cstr "----------" ++ [10] ++ cstr "Bob,bob@x.com,FULLSTACK_DEVELOPER,true,01.01.2000" ++ [10]
     ++ cstr "Alice,alice@x.com,BACKEND_DEVELOPER,true,01.02.1990" ++ [10],
   by decide⟩

theorem initial_store_reachable : Reachable initial_store := ⟨[], [], [], rfl⟩

theorem print_table_append (st : Store) (c : Customer) :
    print_table_to_file (add_customer_record st c) = print_table_to_file st ++ print_customer c := by
  unfold print_table_to_file
  rw [(add_customer_record_table st c).1]
  simp

theorem update_failure_atomic (st : Store) (params : CStr) :
    (strstr params (cstr " SET ") = none → handle_update_command st params = some (1, st)) ∧
    (strstr params (cstr " WHERE id=") = none →
      handle_update_command st params = some (1, st)) ∧
    (∀ s w, strstr params (cstr " SET ") = some s → strstr params (cstr " WHERE id=") = some w →
      w < s → handle_update_command st params = some (1, st)) ∧
    (∀ s w, strstr params (cstr " SET ") = some s → strstr params (cstr " WHERE id=") = some w →
      s + 5 ≤ w → w - (s + 5) < MAX_LINE_LEN →
      (sscanf_sp_where_id (params.drop w) = none ∨
        ∃ k, sscanf_sp_where_id (params.drop w) = some k ∧
          ∀ c ∈ st.customer_table, c.id ≠ k) →
      handle_update_command st params = some (1, st)) := by
  refine ⟨?_, ?_, ?_, ?_⟩
  · intro h
    unfold handle_update_command
    rw [h]
  · intro h
    unfold handle_update_command
    rw [h]
    split <;> simp_all
  · intro s w hs hw hlt
    unfold handle_update_command
    rw [hs, hw]
    simp [hlt]
  · intro s w hs hw h5 hlen hfail
    unfold handle_update_command
    rw [hs, hw]
    have h1 : ¬ s > w := by omega
    have h2 : ¬ w < s + 5 := by omega
    have h3 : ¬ w - (s + 5) ≥ MAX_LINE_LEN := by omega
    simp only [h1, h2, h3, if_false]
    rcases hfail with h | ⟨k, h, hk⟩
    · rw [h]
    · rw [h]
      simp only [find_customer_none _ k hk]

theorem dispatch_update_error (st : Store) (params : CStr)
    (hp : starts_with params (cstr "CUSTOMER") = true)
    (h : handle_update_command st params = some (1, st)) :
    dispatch st (cstr "UPDATE") params =
      some (st, cstr "----------" ++ [10] ++ cstr "error" ++ [10]) := by
  have h1 : ¬ (cstr "UPDATE" = cstr "INSERT") := by decide
  have h2 : ¬ (cstr "UPDATE" = cstr "DELETE") := by decide
  unfold dispatch
  simp only [h1, h2, false_and, if_false, hp, and_self, if_true, h]
  simp [print_separator_and_table_to_file]

theorem ensure_table_capacity_room (st : Store) (h : CapacityOk st) :
    (ensure_table_capacity st).customer_count < (ensure_table_capacity st).table_capacity ∧
    ((ensure_table_capacity st).table_capacity = 0 ∨
      ∃ n : Nat, (ensure_table_capacity st).table_capacity = 10 * 2 ^ n) := by
  obtain ⟨h1, h2⟩ := h
  unfold ensure_table_capacity
  unfold Store.customer_count at *
  split_ifs with hge h0
  · simp only [INITIAL_CAPACITY]
    exact ⟨by omega, Or.inr ⟨0, by simp⟩⟩
  · rcases h2 with h2 | ⟨n, hn⟩
    · exact absurd h2 h0
    · simp only
      exact ⟨by omega, Or.inr ⟨n + 1, by rw [hn, pow_succ]; ring⟩⟩
  · exact ⟨by omega, h2⟩

theorem CapacityOk_add (st : Store) (c : Customer) (h : CapacityOk st) :
    CapacityOk (add_customer_record st c) := by
  obtain ⟨h1, h2⟩ := ensure_table_capacity_room st h
  unfold add_customer_record
  unfold CapacityOk Store.customer_count at *
  simp only [List.length_append, List.length_singleton]
  exact ⟨by omega, h2⟩

theorem CapacityOk_process_line (st st1 : Store) (line out : CStr) (h : CapacityOk st)
    (hp : process_line st line = some (st1, out)) : CapacityOk st1 := by
  rcases process_line_cases st st1 line out hp with h1 | ⟨p, h1⟩ | ⟨p, h1⟩ | ⟨p, r, h1⟩ | h1
  · rw [h1]; exact h
  · rcases handle_insert_command_appends st p with h2 | ⟨c, h2, _, _⟩
    · rw [h1, h2]; exact h
    · rw [h1, h2]; exact CapacityOk_add _ c h
  · obtain ⟨q, hq⟩ := handle_delete_command_filter st p
    rw [h1, hq]
    have := List.length_filter_le q st.customer_table
    unfold CapacityOk Store.customer_count at *
    exact ⟨by simp only; omega, h.2⟩
  · rcases handle_update_command_some st st1 p r h1 with h2 | ⟨i, save, hi, h2⟩
    · rw [h2]; exact h
    · rw [h2]
      unfold CapacityOk Store.customer_count at *
      simpa using h
  · rw [h1]
    exact ⟨by simp [handle_truncate_command, Store.customer_count], Or.inl rfl⟩

theorem length_filter_add_countP (t : List Customer) (k : Int) :
    (t.filter (fun c => decide (c.id ≠ k))).length + t.countP (fun c => decide (c.id = k)) =
      t.length := by
  induction t with
  | nil => rfl
  | cons a as ih =>
    by_cases h : a.id = k
    · simp [List.filter_cons, List.countP_cons, h] at ih ⊢
      omega
    · simp [List.filter_cons, List.countP_cons, h] at ih ⊢
      omega

theorem strtok_r_save_length (save delim tok save1 : CStr)
    (h : strtok_r save delim = (some tok, save1)) : save1.length < save.length := by
  simp only [strtok_r] at h
  split at h
  · simp at h
  · rename_i hne
    simp only [Prod.mk.injEq, Option.some.injEq] at h
    rw [← h.2]
    have h1 := (@List.dropWhile_sublist _ save (fun c => delim.contains c)).length_le
    have h2 := (@List.dropWhile_sublist _
      (List.dropWhile (fun c => delim.contains c) save)
      (fun c => !delim.contains c)).length_le
    have h3 : 0 < (List.dropWhile (fun c => delim.contains c) save).length :=
      List.length_pos.mpr hne
    simp only [List.length_drop]
    omega

theorem set_loop_eq_foldl (fuel : Nat) :
    ∀ (save : CStr) (t : Customer), save.length ≤ fuel →
      set_loop save t = (set_items_from fuel save).foldl (fun t tok => apply_set_item tok t) t := by
  induction fuel with
  | zero =>
    intro save t h
    have : save = [] := List.length_eq_zero.mp (by omega)
    subst this
    rw [set_loop]
    rfl
  | succ f ih =>
    intro save t h
    rw [set_loop]
    simp only [set_items_from]
    rcases hs : strtok_r save (cstr ",") with ⟨_ | tok, save1⟩
    · simp
    · have hl := strtok_r_save_length save _ tok save1 hs
      simp only [List.foldl_cons]
      exact ih save1 _ (by omega)

theorem set_loop_eq_items (save : CStr) (t : Customer) :
    set_loop save t = (set_items save).foldl (fun t tok => apply_set_item tok t) t :=
  set_loop_eq_foldl save.length save t (Nat.le_refl _)

theorem handle_update_command_success (st st1 : Store) (params : CStr)
    (h : handle_update_command st params = some (0, st1)) :
    ∃ (s w i : Nat) (k : Int) (hi : i < st.customer_table.length),
      strstr params (cstr " SET ") = some s ∧ strstr params (cstr " WHERE id=") = some w ∧
      sscanf_sp_where_id (params.drop w) = some k ∧
      find_customer st.customer_table k = some i ∧
      (st.customer_table.get ⟨i, hi⟩).id = k ∧
      st1 = { st with
        customer_table := st.customer_table.set i
          (set_loop ((params.drop (s + 5)).take (w - (s + 5)))
            (st.customer_table.get ⟨i, hi⟩)) } := by
  unfold handle_update_command at h
  split at h
  · rename_i s w hs hw
    split_ifs at h
    · simp at h
    · split at h
      · simp at h
      · rename_i k hk
        split at h
        · simp at h
        · rename_i i hf
          obtain ⟨hi, h1, h2⟩ := find_customer_some _ _ i
            { id := 0, name := [], mail := [], job_type := 0, email_verified := 0,
              date_of_birth := zero_date } hf
          rw [h1] at h
          simp only [Option.some.injEq, Prod.mk.injEq, true_and] at h
          exact ⟨s, w, i, k, hi, hs, hw, hk, hf, h2, h.symm⟩
  · simp at h

theorem foldl_apply_set_item_frame {α : Type} (f : Customer → α) (P : CStr → Prop)
    (hstep : ∀ (tok : CStr) (t : Customer), P tok → f (apply_set_item tok t) = f t) :
    ∀ (items : List CStr) (t : Customer), (∀ tok ∈ items, P tok) →
      f (items.foldl (fun t tok => apply_set_item tok t) t) = f t := by
  intro items
  induction items with
  | nil => intro t _; rfl
  | cons a as ih =>
    intro t h
    rw [List.foldl_cons, ih _ (fun tok htok => h tok (List.mem_cons_of_mem _ htok))]
    exact hstep a t (h a (List.mem_cons_self _ _))

theorem apply_set_item_name (tok : CStr) (t : Customer)
    (h : item_field_name tok ≠ some (cstr "name")) : (apply_set_item tok t).name = t.name := by
  unfold item_field_name at h
  unfold apply_set_item
  simp only at h ⊢
  split
  · rename_i f v h1 h2
    rw [h1, h2] at h
    simp only [ne_eq, Option.some.injEq] at h
    split_ifs <;> rfl
  · rfl

theorem apply_set_item_mail (tok : CStr) (t : Customer)
    (h : item_field_name tok ≠ some (cstr "email") ∧ item_field_name tok ≠ some (cstr "mail")) :
    (apply_set_item tok t).mail = t.mail := by
  unfold item_field_name at h
  unfold apply_set_item
  simp only at h ⊢
  split
  · rename_i f v h1 h2
    rw [h1, h2] at h
    simp only [ne_eq, Option.some.injEq] at h
    split_ifs with a b <;> first | rfl | exact absurd (b.resolve_right h.2) h.1
  · rfl

theorem apply_set_item_keeps_job_type (tok : CStr) (t : Customer)
    (h : item_field_name tok ≠ some (cstr "job_type")) :
    (apply_set_item tok t).job_type = t.job_type := by
  unfold item_field_name at h
  unfold apply_set_item
  simp only at h ⊢
  split
  · rename_i f v h1 h2
    rw [h1, h2] at h
    simp only [ne_eq, Option.some.injEq] at h
    split_ifs <;> rfl
  · rfl

theorem apply_set_item_email_verified (tok : CStr) (t : Customer)
    (h : item_field_name tok ≠ some (cstr "email_verified")) :
    (apply_set_item tok t).email_verified = t.email_verified := by
  unfold item_field_name at h
  unfold apply_set_item
  simp only at h ⊢
  split
  · rename_i f v h1 h2
    rw [h1, h2] at h
    simp only [ne_eq, Option.some.injEq] at h
    split_ifs <;> rfl
  · rfl

theorem apply_set_item_date (tok : CStr) (t : Customer)
    (h : item_field_name tok ≠ some (cstr "date")) :
    (apply_set_item tok t).date_of_birth = t.date_of_birth := by
  unfold item_field_name at h
  unfold apply_set_item
  simp only at h ⊢
  split
  · rename_i f v h1 h2
    rw [h1, h2] at h
    simp only [ne_eq, Option.some.injEq] at h
    split_ifs <;> rfl
  · rfl

theorem handle_insert_command_no_paren (st : Store) (params : CStr) (h : 40 ∉ params) :
    handle_insert_command st params = st := by
  have hs : strchr params 40 = none := by
    induction params with
    | nil => rfl
    | cons c cs ih =>
      unfold strchr
      have hc : c ≠ 40 := fun hc => h (by simp [hc])
      rw [if_neg hc]
      exact ih (fun hm => h (List.mem_cons_of_mem _ hm))
  unfold handle_insert_command
  rw [hs]

theorem handle_delete_command_no_where (st : Store) (params : CStr)
    (h : strstr params (cstr "WHERE id=") = none ∨
      ∃ off, strstr params (cstr "WHERE id=") = some off ∧
        sscanf_where_id (params.drop off) = none) :
    handle_delete_command st params = st := by
  unfold handle_delete_command
  rcases h with h | ⟨off, h1, h2⟩
  · rw [h]
  · rw [h1]
    simp only [h2]

theorem dispatch_ignored (st : Store) (command_type params_part : CStr)
    (h : (¬ (command_type = cstr "INSERT" ∧ starts_with params_part (cstr "INTO CUSTOMER") = true) ∧
          ¬ (command_type = cstr "DELETE" ∧ starts_with params_part (cstr "FROM CUSTOMER") = true) ∧
          ¬ (command_type = cstr "UPDATE" ∧ starts_with params_part (cstr "CUSTOMER") = true) ∧
          ¬ (command_type = cstr "TRUNCATE" ∧
              starts_with params_part (cstr "TABLE CUSTOMER") = true)) ∨
        (command_type = cstr "INSERT" ∧ starts_with params_part (cstr "INTO CUSTOMER") = true ∧
          40 ∉ (params_part.drop (cstr "INTO CUSTOMER").length).dropWhile isspace) ∨
        (command_type = cstr "DELETE" ∧ starts_with params_part (cstr "FROM CUSTOMER") = true ∧
          (strstr params_part (cstr "WHERE id=") = none ∨
            ∃ off, strstr params_part (cstr "WHERE id=") = some off ∧
              sscanf_where_id (params_part.drop off) = none))) :
    dispatch st command_type params_part =
      some (st, cstr "----------" ++ [10] ++ print_table_to_file st) := by
  have hout : print_separator_and_table_to_file st 0 none =
      cstr "----------" ++ [10] ++ print_table_to_file st := by
    simp [print_separator_and_table_to_file]
  unfold dispatch
  rcases h with ⟨h1, h2, h3, h4⟩ | ⟨h1, h2, h3⟩ | ⟨h1, h2, h3⟩
  · rw [if_neg h1, if_neg h2, if_neg h3, if_neg h4, hout]
  · rw [if_pos ⟨h1, h2⟩]
    simp only [handle_insert_command_no_paren st _ h3, hout]
  · have hne : ¬ (command_type = cstr "INSERT" ∧
        starts_with params_part (cstr "INTO CUSTOMER") = true) := by
      rintro ⟨hc, _⟩
      rw [h1] at hc
      revert hc
      decide
    rw [if_neg hne, if_pos ⟨h1, h2⟩]
    simp only [handle_delete_command_no_where st _ h3, hout]

theorem spec_token_len_cons (c : Nat) (cs : CStr) (q : Bool) :
    spec_token_len (c :: cs) q =
      if c = 34 then 1 + spec_token_len cs (!q)
      else if c = 0xE2 ∧ byteAt cs 0 = 0x80 ∧ (byteAt cs 1 = 0x9C ∨ byteAt cs 1 = 0x9D) then
        3 + spec_token_len (cs.drop 2) (!q)
      else if q = false ∧ (c = 44 ∨ c = 41) then 0
      else 1 + spec_token_len cs q := by
  rcases cs with _ | ⟨c1, _ | ⟨c2, rest⟩⟩ <;> simp [spec_token_len, byteAt]

theorem no_quoted_paren_cons (c : Nat) (cs : CStr) (q : Bool) :
    no_quoted_paren (c :: cs) q =
      if c = 41 then !q
      else if c = 34 then no_quoted_paren cs (!q)
      else if c = 0xE2 ∧ byteAt cs 0 = 0x80 ∧ (byteAt cs 1 = 0x9C ∨ byteAt cs 1 = 0x9D) then
        no_quoted_paren (cs.drop 2) (!q)
      else no_quoted_paren cs q := by
  rcases cs with _ | ⟨c1, _ | ⟨c2, rest⟩⟩ <;> simp [no_quoted_paren, byteAt]

theorem scan_token_eq_spec (n : Nat) :
    ∀ (p : CStr) (q : Bool), p.length ≤ n → no_quoted_paren p q = true →
      scan_token p q = spec_token_len p q := by
  induction n using Nat.strong_induction_on with
  | _ n ih =>
    intro p q hn h
    rcases p with _ | ⟨c, cs⟩
    · rfl
    · rw [no_quoted_paren_cons] at h
      rw [scan_token_cons, spec_token_len_cons]
      simp only [List.length_cons] at hn
      by_cases h41 : c = 41
      · subst h41
        simp at h
        simp [h]
      · rw [if_neg h41] at h ⊢
        by_cases h34 : c = 34
        · rw [if_pos h34] at h ⊢
          rw [if_pos h34, ih (n - 1) (by omega) cs (!q) (by omega) h]
        · rw [if_neg h34] at h ⊢
          rw [if_neg h34]
          by_cases hcur : c = 0xE2 ∧ byteAt cs 0 = 0x80 ∧
              (byteAt cs 1 = 0x9C ∨ byteAt cs 1 = 0x9D)
          · rw [if_pos hcur] at h ⊢
            rw [if_pos hcur, ih (n - 1) (by omega) (cs.drop 2) (!q)
              (by simp only [List.length_drop]; omega) h]
          · rw [if_neg hcur] at h ⊢
            rw [if_neg hcur, ih (n - 1) (by omega) cs q (by omega) h]
            simp [h41]

theorem scan_token_end (n : Nat) :
    ∀ (p : CStr) (q : Bool), p.length ≤ n → no_quoted_paren p q = true →
      p.drop (scan_token p q) = [] ∨ byteAt (p.drop (scan_token p q)) 0 = 41 ∨
      (byteAt (p.drop (scan_token p q)) 0 = 44 ∧
        no_quoted_paren ((p.drop (scan_token p q)).drop 1) false = true) := by
  induction n using Nat.strong_induction_on with
  | _ n ih =>
    intro p q hn h
    rcases p with _ | ⟨c, cs⟩
    · left; simp [scan_token]
    · rw [no_quoted_paren_cons] at h
      rw [scan_token_cons]
      simp only [List.length_cons] at hn
      by_cases h41 : c = 41
      · subst h41
        right; left
        simp [byteAt]
      · rw [if_neg h41] at h ⊢
        by_cases h34 : c = 34
        · rw [if_pos h34] at h ⊢
          have := ih (n - 1) (by omega) cs (!q) (by omega) h
          rw [Nat.add_comm 1, List.drop_succ_cons]
          exact this
        · rw [if_neg h34] at h ⊢
          by_cases hcur : c = 0xE2 ∧ byteAt cs 0 = 0x80 ∧
              (byteAt cs 1 = 0x9C ∨ byteAt cs 1 = 0x9D)
          · rw [if_pos hcur] at h ⊢
            have := ih (n - 1) (by omega) (cs.drop 2) (!q)
              (by simp only [List.length_drop]; omega) h
            have e : List.drop (3 + scan_token (List.drop 2 cs) (!q)) (c :: cs) =
                List.drop (scan_token (List.drop 2 cs) (!q)) (List.drop 2 cs) := by
              rw [show 3 + scan_token (List.drop 2 cs) (!q) =
                (scan_token (List.drop 2 cs) (!q) + 2) + 1 by omega, List.drop_succ_cons]
              simp [List.drop_drop, Nat.add_comm]
            rw [e]
            exact this
          · rw [if_neg hcur] at h ⊢
            by_cases hcomma : q = false ∧ c = 44
            · rw [if_pos hcomma]
              right; right
              obtain ⟨hq, hc⟩ := hcomma
              subst hq hc
              simp [byteAt, h]
            · rw [if_neg hcomma]
              have := ih (n - 1) (by omega) cs q (by omega) h
              rw [Nat.add_comm 1, List.drop_succ_cons]
              exact this

theorem parse_fields_eq_store_fields (left : Nat) :
    ∀ (field_index : Nat) (p : CStr) (out : InsertValues),
      0 ∉ p → no_quoted_paren p false = true →
      parse_fields left field_index p out =
        store_fields field_index (cut_fields (spec_tokens left p)) out := by
  induction left with
  | zero => intro fi p out _ _; rfl
  | succ left ih =>
    intro fi p out h0 hq
    rw [parse_fields, spec_tokens]
    have hhead : (byteAt p 0 = 0 ∨ byteAt p 0 = 41) ↔ (p = [] ∨ byteAt p 0 = 41) := by
      rcases p with _ | ⟨c, cs⟩
      · simp [byteAt]
      · have hc : c ≠ 0 := fun hc => h0 (by simp [hc])
        simp [byteAt, hc]
    by_cases hstop : p = [] ∨ byteAt p 0 = 41
    · rw [if_pos (hhead.mpr hstop), if_pos hstop]
      rfl
    · rw [if_neg (fun hh => hstop (hhead.mp hh)), if_neg hstop]
      have hlen := scan_token_eq_spec p.length p false (Nat.le_refl _) hq
      simp only [← hlen]
      have hend := scan_token_end p.length p false (Nat.le_refl _) hq
      have htake : List.take (if scan_token p false ≥ MAX_FIELD_LEN then MAX_FIELD_LEN - 1
          else scan_token p false) p =
          List.take (MAX_FIELD_LEN - 1) (List.take (scan_token p false) p) := by
        rw [List.take_take]
        congr 1
        simp only [MAX_FIELD_LEN]
        split_ifs <;> omega
      have h0' : 0 ∉ (if byteAt (List.drop (scan_token p false) p) 0 = 44 then
          List.drop 1 (List.drop (scan_token p false) p)
          else List.drop (scan_token p false) p) := by
        intro hm
        split_ifs at hm
        · exact h0 (List.mem_of_mem_drop (List.mem_of_mem_drop hm))
        · exact h0 (List.mem_of_mem_drop hm)
      have hq' : no_quoted_paren (if byteAt (List.drop (scan_token p false) p) 0 = 44 then
          List.drop 1 (List.drop (scan_token p false) p)
          else List.drop (scan_token p false) p) false = true := by
        rcases hend with he | he | ⟨he, hn⟩
        · rw [he]; simp [byteAt, no_quoted_paren]
        · rw [if_neg (by rw [he]; decide)]
          rcases hd : List.drop (scan_token p false) p with _ | ⟨x, r⟩
          · rfl
          · rw [hd] at he
            simp [byteAt] at he
            subst he
            rw [no_quoted_paren_cons]
            simp
        · rw [if_pos he]; exact hn
      rw [ih _ _ _ h0' hq', htake]
      simp only [cut_fields, List.map_cons, store_fields]

theorem spec_tokens_length (n : Nat) : ∀ p : CStr, (spec_tokens n p).length ≤ n := by
  induction n with
  | zero => intro p; simp [spec_tokens]
  | succ n ih =>
    intro p
    rw [spec_tokens]
    split_ifs
    · simp
    · simp only [List.length_cons]
      have := ih (if byteAt (List.drop (spec_token_len p false) p) 0 = 44 then
        List.drop 1 (List.drop (spec_token_len p false) p)
        else List.drop (spec_token_len p false) p)
      omega

theorem store_fields_defaults (fields : List CStr) (h : fields.length ≤ 5) :
    store_fields 0 fields
        { name_out := cstr "null", email_out := cstr "null", job_type_out := 0,
          email_verified_out := 0, date_str_out := cstr "0.0.0" } =
      cut_values (spec_values fields) := by
  have e1 : List.take (MAX_NAME_LEN - 1) (cstr "null") = cstr "null" := by decide
  have e2 : List.take (MAX_EMAIL_LEN - 1) (cstr "null") = cstr "null" := by decide
  have e3 : List.take (MAX_DATE_LEN - 1) (cstr "0.0.0") = cstr "0.0.0" := by decide
  rcases fields with _ | ⟨f0, _ | ⟨f1, _ | ⟨f2, _ | ⟨f3, _ | ⟨f4, _ | ⟨f5, r⟩⟩⟩⟩⟩⟩
  · simp [store_fields, cut_values, spec_values, e1, e2, e3]
  · simp only [store_fields, cut_values, spec_values, store_field, List.getD_cons_zero,
      List.getD_cons_succ, List.getD_nil, List.length_nil, gt_iff_lt, Nat.lt_irrefl, if_false,
      e2, e3]
    split_ifs <;> simp [e1]
  · simp only [store_fields, cut_values, spec_values, store_field, List.getD_cons_zero,
      List.getD_cons_succ, List.getD_nil, List.length_nil, gt_iff_lt, Nat.lt_irrefl, if_false,
      e3]
    split_ifs <;> simp [e1, e2]
  · simp only [store_fields, cut_values, spec_values, store_field, List.getD_cons_zero,
      List.getD_cons_succ, List.getD_nil, List.length_nil, gt_iff_lt, Nat.lt_irrefl, if_false,
      e3]
    split_ifs <;> simp [e1, e2]
  · simp only [store_fields, cut_values, spec_values, store_field, List.getD_cons_zero,
      List.getD_cons_succ, List.getD_nil, List.length_nil, gt_iff_lt, Nat.lt_irrefl, if_false,
      e3]
    split_ifs <;> simp [e1, e2]
  · simp only [store_fields, cut_values, spec_values, store_field, List.getD_cons_zero,
      List.getD_cons_succ, List.getD_nil, List.length_nil, gt_iff_lt, Nat.lt_irrefl, if_false]
    split_ifs <;> simp [e1, e2, e3]
  · simp at h

theorem updated_example_store_eq :
    handle_update_command example_store example_update_params =
      some (0, updated_example_store) := by
  unfold handle_update_command
  simp only [set_loop_eq_items]
  decide

theorem insert_value_list_examples :
    robust_parse_insert_values (some (cstr "(, , , , )")) =
      { name_out := cstr "null", email_out := cstr "null", job_type_out := 0,
        email_verified_out := 0, date_str_out := cstr "0.0.0" } ∧
    robust_parse_insert_values (some (cstr "(\"\", a@x.com)")) =
      { name_out := cstr "null", email_out := cstr "a@x.com", job_type_out := 0,
        email_verified_out := 0, date_str_out := cstr "0.0.0" } ∧
    robust_parse_insert_values (some (cstr "()")) =
      { name_out := cstr "null", email_out := cstr "null", job_type_out := 0,
        email_verified_out := 0, date_str_out := cstr "0.0.0" } ∧
    robust_parse_insert_values (some (cstr "(Bob)")) =
      { name_out := cstr "Bob", email_out := cstr "null", job_type_out := 0,
        email_verified_out := 0, date_str_out := cstr "0.0.0" } ∧
    robust_parse_insert_values (some (cstr "(a,b,1,2,3.4.5,six,seven) tail")) =
      { name_out := cstr "a", email_out := cstr "b", job_type_out := 1,
        email_verified_out := 2, date_str_out := cstr "3.4.5" } := by
  decide

theorem load_line_examples :
    load_line initial_store (cstr "Bob,bob@x.com,2,1,1.1.2000" ++ [10]) =
      { customer_table :=
          [{ id := 1, name := cstr "Bob", mail := cstr "bob@x.com", job_type := 2,
             email_verified := 1, date_of_birth := { day := 1, month := 1, year := 2000 } }],
        table_capacity := 10, next_customer_id := 2 } ∧
    load_line initial_store (cstr "Bob" ++ [10]) =
      { customer_table :=
          [{ id := 1, name := cstr "Bob", mail := cstr "null", job_type := 0,
             email_verified := 0, date_of_birth := { day := 0, month := 0, year := 0 } }],
        table_capacity := 10, next_customer_id := 2 } := by
  decide

theorem set_get_self (t : List Customer) (i : Nat) (hi : i < t.length) :
    t.set i (t.get ⟨i, hi⟩) = t := by
  induction t generalizing i with
  | nil => simp at hi
  | cons a as ih =>
    cases i with
    | zero => rfl
    | succ j =>
      simp only [List.set_cons_succ, List.get_cons_succ]
      rw [ih j (by simpa using hi)]

theorem customer_eq_of_fields (a b : Customer) (h1 : a.id = b.id) (h2 : a.name = b.name)
    (h3 : a.mail = b.mail) (h4 : a.job_type = b.job_type)
    (h5 : a.email_verified = b.email_verified) (h6 : a.date_of_birth = b.date_of_birth) :
    a = b := by
  cases a
  cases b
  simp only [Customer.mk.injEq]
  exact ⟨h1, h2, h3, h4, h5, h6⟩

/-! ## The claims -/

/-- C1: for every integer `n` with `0 ≤ n ≤ 7` the name of `int_to_job_type n` is
the `n`-th entry of the fixed name table, and for every `n` outside `[0,7]`,
negative ones included, `int_to_job_type n` is ordinal 0. -/
theorem C1_job_type_name_table (n : Int) :
    (0 ≤ n → n ≤ 7 →
      job_type_to_string (int_to_job_type n) =
        [cstr "BACKEND_DEVELOPER", cstr "FRONTEND_DEVELOPER", cstr "FULLSTACK_DEVELOPER",
         cstr "MOBILE_DEVELOPER", cstr "EMBEDDED_SOFTWARE_ENGINEER", cstr "GAME_DEVELOPER",
         cstr "DEVOPS_ENGINEER", cstr "TEST_ENGINEER"].getD n.toNat []) ∧
    ((n < 0 ∨ 7 < n) → int_to_job_type n = 0) := by
  constructor
  · intro h0 h7
    interval_cases n <;> rfl
  · intro h
    unfold int_to_job_type JOB_TYPE_COUNT
    rw [if_neg]
    omega

/-- Witness of C1 at `n = 3`, `n = -1` and `n = 8`. -/
theorem C1_job_type_name_table_witness :
    job_type_to_string (int_to_job_type 3) = cstr "MOBILE_DEVELOPER" ∧
    int_to_job_type (-1) = 0 ∧ int_to_job_type 8 = 0 :=
  ⟨(C1_job_type_name_table 3).1 (by decide) (by decide),
   (C1_job_type_name_table (-1)).2 (by decide),
   (C1_job_type_name_table 8).2 (by decide)⟩

/-- C2 at its own input: on the empty store with id counter 1 the line
`INSERT INTO CUSTOMER (Alice, alice@x.com, 0, true, 1.2.1990);` appends one
record with id 1, but INSERT reads the fourth value with `atoi`, so the text
`true` is stored as 0 and the snapshot line ends in `false,01.02.1990`. -/
theorem C2_insert_text_true_is_stored_as_zero :
    process_line initial_store
        (cstr "INSERT INTO CUSTOMER (Alice, alice@x.com, 0, true, 1.2.1990);") =
      some
        ({ customer_table :=
             [{ id := 1, name := cstr "Alice", mail := cstr "alice@x.com", job_type := 0,
                email_verified := 0, date_of_birth := { day := 1, month := 2, year := 1990 } }],
           table_capacity := 10, next_customer_id := 2 },
         cstr "----------" ++ [10] ++
           cstr "Alice,alice@x.com,BACKEND_DEVELOPER,false,01.02.1990" ++ [10]) := by
  decide

/-- C3 (amended): for every non-empty text `s` of at most 99 bytes without double
quote, curly-quote byte sequence or `)`, the value list
`("s", j@x.com, 1, false, 5.5.2000)` yields name `s`, the wrapping quotes
removed and embedded commas kept, and mail `j@x.com`. -/
theorem C3_quoted_name_keeps_comma (s : CStr) (hne : s ≠ []) (hlen : s.length ≤ 99)
    (h34 : 34 ∉ s) (h41 : 41 ∉ s)
    (hopen : ¬ [0xE2, 0x80, 0x9C] <:+: s) (hclose : ¬ [0xE2, 0x80, 0x9D] <:+: s) :
    robust_parse_insert_values
        (some (cstr "(\"" ++ s ++ cstr "\", j@x.com, 1, false, 5.5.2000)")) =
      { name_out := s, email_out := cstr "j@x.com", job_type_out := 1,
        email_verified_out := 0, date_str_out := cstr "5.5.2000" } := by
  have e1 : cstr "(\"" = [40, 34] := by decide
  have e2 : cstr "\", j@x.com, 1, false, 5.5.2000)" =
      34 :: 44 :: cstr " j@x.com, 1, false, 5.5.2000)" := by decide
  have hl : (cstr " j@x.com, 1, false, 5.5.2000)").length = 29 := by decide
  have hpos : 0 < s.length := List.length_pos.mpr hne
  have hscan : scan_token (34 :: (s ++ 34 :: 44 :: cstr " j@x.com, 1, false, 5.5.2000)")) false
      = s.length + 2 := by
    rw [scan_token_cons, if_neg (by decide), if_pos rfl,
      show (!false) = true from rfl, scan_token_quoted s _ h34 h41 hopen hclose,
      scan_token_cons]
    simp
    omega
  have htake : List.take (s.length + 2)
      (34 :: (s ++ 34 :: 44 :: cstr " j@x.com, 1, false, 5.5.2000)")) = 34 :: (s ++ [34]) := by
    simp [List.take_append_eq_append_take]
  have hdrop : List.drop (s.length + 2)
      (34 :: (s ++ 34 :: 44 :: cstr " j@x.com, 1, false, 5.5.2000)")) =
        44 :: cstr " j@x.com, 1, false, 5.5.2000)" := by
    simp [List.drop_append_eq_append_drop]
  unfold robust_parse_insert_values
  rw [e1, e2]
  simp only [List.cons_append, List.nil_append]
  rw [if_neg (by simp), List.take_of_length_le (by simp [hl, MAX_LINE_LEN]; omega)]
  rw [if_pos (by simp [byteAt])]
  simp only [List.drop_succ_cons, List.drop_zero]
  rw [show (5 : Nat) = 4 + 1 from rfl, parse_fields]
  rw [if_neg (by simp [byteAt])]
  have htl : (if s.length + 2 ≥ MAX_FIELD_LEN then MAX_FIELD_LEN - 1 else s.length + 2)
      = s.length + 2 := if_neg (by simp [MAX_FIELD_LEN]; omega)
  simp only [hscan, htl, htake, hdrop, trim_whitespace_ends 34 34 s (by decide) (by decide),
    trim_quotes_wrapped]
  have hb : byteAt (44 :: cstr " j@x.com, 1, false, 5.5.2000)") 0 = 44 := by simp [byteAt]
  simp only [hb, gt_iff_lt, hpos, if_true, List.drop_succ_cons, List.drop_zero, Nat.zero_add]
  rw [parse_fields_tail]
  simp [store_field, MAX_NAME_LEN, List.take_of_length_le hlen]

/-- Witness of C3 at `s = Smith, John`. -/
theorem C3_quoted_name_keeps_comma_witness :
    robust_parse_insert_values
        (some (cstr "(\"" ++ cstr "Smith, John" ++ cstr "\", j@x.com, 1, false, 5.5.2000)")) =
      { name_out := cstr "Smith, John", email_out := cstr "j@x.com", job_type_out := 1,
        email_verified_out := 0, date_str_out := cstr "5.5.2000" } :=
  C3_quoted_name_keeps_comma (cstr "Smith, John") (by decide) (by decide) (by decide)
    (by decide) (by decide) (by decide)

/-- C3 as stated fails at the empty text: the token `""` is empty after quote
stripping, so the guard `strlen(token_buffer) > 0` keeps the default name
`null`. -/
theorem C3_empty_quoted_name_counterexample :
    robust_parse_insert_values (some (cstr "(\"\", j@x.com, 1, false, 5.5.2000)")) =
      { name_out := cstr "null", email_out := cstr "j@x.com", job_type_out := 1,
        email_verified_out := 0, date_str_out := cstr "5.5.2000" } ∧
    ¬ (∀ s : CStr, s.length ≤ 99 → 34 ∉ s → 41 ∉ s →
        ¬ [0xE2, 0x80, 0x9C] <:+: s → ¬ [0xE2, 0x80, 0x9D] <:+: s →
        (robust_parse_insert_values
          (some (cstr "(\"" ++ s ++ cstr "\", j@x.com, 1, false, 5.5.2000)"))).name_out = s ∧
        (robust_parse_insert_values
          (some (cstr "(\"" ++ s ++ cstr "\", j@x.com, 1, false, 5.5.2000)"))).email_out
            = cstr "j@x.com") := by
  refine ⟨by decide, fun h => ?_⟩
  have h0 := (h [] (by decide) (by decide) (by decide) (by decide) (by decide)).1
  revert h0
  decide

/-- C4: for every store, `handle_truncate_command` leaves size 0 and id counter 1,
and an INSERT with a `(` in its parameters processed right afterwards yields a
store with exactly one record, whose id is 1. -/
theorem C4_truncate_then_insert (st : Store) (params : CStr) (h : 40 ∈ params) :
    (handle_truncate_command st).customer_count = 0 ∧
    (handle_truncate_command st).next_customer_id = 1 ∧
    (handle_insert_command (handle_truncate_command st) params).customer_count = 1 ∧
    (handle_insert_command (handle_truncate_command st) params).customer_table.map Customer.id
      = [1] := by
  obtain ⟨r, hr⟩ := strchr_ne_none_of_mem params 40 h
  simp [handle_truncate_command, handle_insert_command, hr, add_customer_record,
    ensure_table_capacity, Store.customer_count]

/-- Witness of C4 at the two-record example store. -/
theorem C4_truncate_then_insert_witness :
    40 ∈ cstr "(Carol, carol@x.com, 3, 1, 2.3.1980)" ∧
    (handle_truncate_command example_store).customer_count = 0 ∧
    (handle_truncate_command example_store).next_customer_id = 1 ∧
    (handle_insert_command (handle_truncate_command example_store)
      (cstr "(Carol, carol@x.com, 3, 1, 2.3.1980)")).customer_count = 1 ∧
    (handle_insert_command (handle_truncate_command example_store)
      (cstr "(Carol, carol@x.com, 3, 1, 2.3.1980)")).customer_table.map Customer.id = [1] :=
  ⟨by decide, C4_truncate_then_insert example_store _ (by decide)⟩

/-- C5 at a failing input: when the trailing space of ` SET ` is the leading space
of ` WHERE id=`, as in `UPDATE CUSTOMER SET WHERE id=1;`, the test
`set_clause_start > where_clause_start` passes, the length given to `strncpy`
is -1 and `set_str_full` is overrun; no error outcome is returned, whatever
the store. -/
theorem C5_update_overlapping_markers_overrun (st : Store) :
    handle_update_command st (cstr "CUSTOMER SET WHERE id=1") = none ∧
    process_line st (cstr "UPDATE CUSTOMER SET WHERE id=1;") = none := by
  constructor <;> rfl

/-- C6: for every store and every `int` value `k` that is not the id of a live
record, the line `DELETE FROM CUSTOMER WHERE id=k` (alone or followed by `;`
or a line end) leaves the table and the id counter unchanged, and the block
written for it is the separator and the normal table dump. -/
theorem C6_delete_absent_id_is_noop (st : Store) (k : Int) (suffix : CStr)
    (hk : ∀ c ∈ st.customer_table, c.id ≠ k)
    (_hrange : -2147483648 ≤ k ∧ k ≤ 2147483647)
    (hsuf : suffix = [] ∨ byteAt suffix 0 = 59 ∨ byteAt suffix 0 = 10 ∨ byteAt suffix 0 = 13) :
    process_line st (cstr "DELETE FROM CUSTOMER WHERE id=" ++ printf_d k ++ suffix) =
      some (st, cstr "----------" ++ [10] ++ print_table_to_file st) := by
  rw [process_line_delete st k suffix hsuf, delete_loop_absent k _ hk]
  rfl

/-- Witness of C6 at the example store, `k = 7` and the line end `;\n`. -/
theorem C6_delete_absent_id_is_noop_witness :
    (∀ c ∈ example_store.customer_table, c.id ≠ 7) ∧
    process_line example_store
        (cstr "DELETE FROM CUSTOMER WHERE id=" ++ printf_d 7 ++ (cstr ";" ++ [10])) =
      some (example_store, cstr "----------" ++ [10] ++ print_table_to_file example_store) :=
  ⟨by decide, C6_delete_absent_id_is_noop example_store 7 (cstr ";" ++ [10]) (by decide)
    (by decide) (by decide)⟩

/-- C7: `parse_date` yields the sentinel (0,0,0) for a NULL text, the empty text,
the text `0.0.0`, and every text on which the three-integer scan assigns fewer
than three items; for `5.x` the scan has already stored day 5, which does not
survive. -/
theorem C7_parse_date_sentinel (d : Date) :
    parse_date none d = zero_date ∧
    parse_date (some []) d = zero_date ∧
    parse_date (some (cstr "0.0.0")) d = zero_date ∧
    (∀ s : CStr, (sscanf_date s d).1 ≠ 3 → parse_date (some s) d = zero_date) ∧
    (sscanf_date (cstr "5.x") d = (1, { d with day := 5 }) ∧
      parse_date (some (cstr "5.x")) d = zero_date) := by
  refine ⟨rfl, rfl, rfl, ?_, rfl, rfl⟩
  intro s hs
  unfold parse_date
  simp only [hs, ne_eq, not_false_eq_true, if_true, ite_self]

/-- Witness of C7 at the text `5.6` and a date object holding 7/8/9. -/
theorem C7_parse_date_sentinel_witness :
    (sscanf_date (cstr "5.6") ⟨7, 8, 9⟩).1 ≠ 3 ∧
    parse_date (some (cstr "5.6")) ⟨7, 8, 9⟩ = zero_date :=
  ⟨by decide, (C7_parse_date_sentinel ⟨7, 8, 9⟩).2.2.2.1 (cstr "5.6") (by decide)⟩

/-- C8: in every store reachable from the empty store with id counter 1 through
the seed loader and any sequence of command lines, no two live records have
the same id (the counter is an unbounded integer). -/
theorem C8_ids_unique (st : Store) (h : Reachable st) :
    (st.customer_table.map Customer.id).Nodup := by
  have := reachable_invariant IdsFresh (by simp [IdsFresh, initial_store])
    (fun st line hs => by
      obtain ⟨c, hc, hid, _⟩ := load_line_appends st line
      rw [hc]; exact IdsFresh_add st c hs hid)
    (fun st line st1 out hs hp => IdsFresh_process_line st st1 line out hs hp) st h
  exact this.2

/-- Witness of C8 at the example store. -/
theorem C8_ids_unique_witness :
    Reachable example_store ∧ (example_store.customer_table.map Customer.id).Nodup :=
  ⟨example_store_reachable, C8_ids_unique example_store example_store_reachable⟩

/-- C9: in every reachable store every live record has a job type among the
ordinals 0..7. -/
theorem C9_job_type_in_domain (st : Store) (h : Reachable st) :
    ∀ c ∈ st.customer_table, 0 ≤ c.job_type ∧ c.job_type ≤ 7 := by
  have := reachable_invariant JobTypesValid (by simp [JobTypesValid, initial_store])
    (fun st line hs => by
      obtain ⟨c, hc, _, hj⟩ := load_line_appends st line
      rw [hc]; exact JobTypesValid_add st c hs hj)
    (fun st line st1 out hs hp => JobTypesValid_process_line st st1 line out hs hp) st h
  intro c hc
  have := this c hc
  omega

/-- Witness of C9 at the example store, whose second record was inserted with
the job-type text `9`. -/
theorem C9_job_type_in_domain_witness :
    Reachable example_store ∧
    ∀ c ∈ example_store.customer_table, 0 ≤ c.job_type ∧ c.job_type ≤ 7 :=
  ⟨example_store_reachable, C9_job_type_in_domain example_store example_store_reachable⟩

/-- C10 (amended): `email_verified` is stored as the integer the numeric text
denotes, not normalised to 0/1.  From every reachable store and for every
`int` value `v`, the line `INSERT INTO CUSTOMER (A, a@x.com, 0, v, 1.1.2000);`
leads to a reachable store whose new last record has `email_verified = v`; the
snapshot prints that record with `false` when `v` is 0 and `true` otherwise. -/
theorem C10_email_verified_stored_as_given (st : Store) (v : Int) (hst : Reachable st)
    (hv : -2147483648 ≤ v ∧ v ≤ 2147483647) :
    ∃ st1 : Store,
      process_line st
          (cstr "INSERT INTO CUSTOMER (A, a@x.com, 0, " ++ printf_d v ++ cstr ", 1.1.2000);") =
        some (st1, cstr "----------" ++ [10] ++ print_table_to_file st ++
          (cstr "A,a@x.com,BACKEND_DEVELOPER," ++ (if v = 0 then cstr "false" else cstr "true")
            ++ cstr ",01.01.2000" ++ [10])) ∧
      Reachable st1 ∧
      st1.customer_table = st.customer_table ++
        [{ id := st.next_customer_id, name := cstr "A", mail := cstr "a@x.com", job_type := 0,
           email_verified := v, date_of_birth := { day := 1, month := 1, year := 2000 } }] := by
  have hp := process_line_insert_number st v
  rw [handle_insert_number_in_fourth st v hv] at hp
  have hout : print_separator_and_table_to_file
      (add_customer_record { st with next_customer_id := st.next_customer_id + 1 }
        { id := st.next_customer_id, name := cstr "A", mail := cstr "a@x.com", job_type := 0,
          email_verified := v, date_of_birth := { day := 1, month := 1, year := 2000 } }) 0 none =
      cstr "----------" ++ [10] ++ print_table_to_file st ++
          (cstr "A,a@x.com,BACKEND_DEVELOPER," ++ (if v = 0 then cstr "false" else cstr "true")
            ++ cstr ",01.01.2000" ++ [10]) := by
    have hj : job_type_to_string 0 = cstr "BACKEND_DEVELOPER" := by decide
    have hd2 : printf_0d 2 1 = cstr "01" := by decide
    have hd4 : printf_0d 4 2000 = cstr "2000" := by decide
    have h1 : print_table_to_file { st with next_customer_id := st.next_customer_id + 1 } =
        print_table_to_file st := rfl
    have e1 : cstr "A,a@x.com,BACKEND_DEVELOPER," =
        cstr "A" ++ cstr "," ++ cstr "a@x.com" ++ cstr "," ++ cstr "BACKEND_DEVELOPER" ++ cstr "," := by
      decide
    have e2 : cstr ",01.01.2000" =
        cstr "," ++ cstr "01" ++ cstr "." ++ cstr "01" ++ cstr "." ++ cstr "2000" := by decide
    simp only [print_separator_and_table_to_file, ne_eq, not_true_eq_false, if_false,
      print_table_append, h1, print_customer, hj, hd2, hd4, e1, e2, ite_not,
      List.append_assoc]
  rw [hout] at hp
  exact ⟨_, hp, reachable_step st _ _ _ hst hp, (add_customer_record_table _ _).1⟩

/-- Witness of C10 at the initial store and `v = 5`. -/
theorem C10_email_verified_stored_as_given_witness :
    Reachable initial_store ∧
    ∃ st1 : Store,
      process_line initial_store
          (cstr "INSERT INTO CUSTOMER (A, a@x.com, 0, " ++ printf_d 5 ++ cstr ", 1.1.2000);") =
        some (st1, cstr "----------" ++ [10] ++ print_table_to_file initial_store ++
          (cstr "A,a@x.com,BACKEND_DEVELOPER," ++ (if (5 : Int) = 0 then cstr "false" else cstr "true")
            ++ cstr ",01.01.2000" ++ [10])) ∧
      Reachable st1 ∧
      st1.customer_table = initial_store.customer_table ++
        [{ id := initial_store.next_customer_id, name := cstr "A", mail := cstr "a@x.com",
           job_type := 0, email_verified := 5,
           date_of_birth := { day := 1, month := 1, year := 2000 } }] :=
  ⟨initial_store_reachable,
   C10_email_verified_stored_as_given initial_store 5 initial_store_reachable (by decide)⟩

/-- C10 as stated fails: after `INSERT INTO CUSTOMER (A, a@x.com, 0, 5, 1.1.2000);`
on the empty store the record's `email_verified` is 5, neither 0 nor 1. -/
theorem C10_email_verified_five_counterexample :
    process_commands (load_initial_data initial_store [])
        [cstr "INSERT INTO CUSTOMER (A, a@x.com, 0, 5, 1.1.2000);"] =
      some ({ customer_table :=
                [{ id := 1, name := cstr "A", mail := cstr "a@x.com", job_type := 0,
                   email_verified := 5,
                   date_of_birth := { day := 1, month := 1, year := 2000 } }],
              table_capacity := 10, next_customer_id := 2 },
            cstr "----------" ++ [10] ++ cstr "A,a@x.com,BACKEND_DEVELOPER,true,01.01.2000"
              ++ [10]) ∧
    ¬ (∀ st : Store, Reachable st →
        ∀ c ∈ st.customer_table, c.email_verified = 0 ∨ c.email_verified = 1) := by
  have h : process_commands (load_initial_data initial_store [])
        [cstr "INSERT INTO CUSTOMER (A, a@x.com, 0, 5, 1.1.2000);"] =
      some ({ customer_table :=
                [{ id := 1, name := cstr "A", mail := cstr "a@x.com", job_type := 0,
                   email_verified := 5,
                   date_of_birth := { day := 1, month := 1, year := 2000 } }],
              table_capacity := 10, next_customer_id := 2 },
            cstr "----------" ++ [10] ++ cstr "A,a@x.com,BACKEND_DEVELOPER,true,01.01.2000"
              ++ [10]) := by decide
  refine ⟨h, fun hall => ?_⟩
  have := hall _ ⟨[], _, _, h⟩ _ (List.mem_singleton_self _)
  revert this
  decide

/-- C11: every UPDATE that succeeds on the record with id `k` replaces the first
record with that id in place: the other records, the number and order of
records, the capacity and the id counter are unchanged, the target keeps its
id, and each field of the target keeps its value when no item of the SET
clause names it (name; email or mail; job_type; email_verified; date), so an
item with any other field name changes nothing. -/
theorem C11_update_frame (st st1 : Store) (params : CStr)
    (h : handle_update_command st params = some (0, st1)) :
    ∃ (s w i : Nat) (k : Int) (target new_target : Customer),
      strstr params (cstr " SET ") = some s ∧ strstr params (cstr " WHERE id=") = some w ∧
      sscanf_sp_where_id (params.drop w) = some k ∧
      find_customer st.customer_table k = some i ∧
      st.customer_table[i]? = some target ∧ target.id = k ∧
      st1.customer_table = st.customer_table.set i new_target ∧
      st1.customer_table.length = st.customer_table.length ∧
      (∀ j, j ≠ i → st1.customer_table[j]? = st.customer_table[j]?) ∧
      st1.customer_table[i]? = some new_target ∧
      st1.next_customer_id = st.next_customer_id ∧
      st1.table_capacity = st.table_capacity ∧
      new_target.id = target.id ∧
      ((∀ tok ∈ set_items ((params.drop (s + 5)).take (w - (s + 5))),
          item_field_name tok ≠ some (cstr "name")) → new_target.name = target.name) ∧
      ((∀ tok ∈ set_items ((params.drop (s + 5)).take (w - (s + 5))),
          item_field_name tok ≠ some (cstr "email") ∧ item_field_name tok ≠ some (cstr "mail")) →
        new_target.mail = target.mail) ∧
      ((∀ tok ∈ set_items ((params.drop (s + 5)).take (w - (s + 5))),
          item_field_name tok ≠ some (cstr "job_type")) →
        new_target.job_type = target.job_type) ∧
      ((∀ tok ∈ set_items ((params.drop (s + 5)).take (w - (s + 5))),
          item_field_name tok ≠ some (cstr "email_verified")) →
        new_target.email_verified = target.email_verified) ∧
      ((∀ tok ∈ set_items ((params.drop (s + 5)).take (w - (s + 5))),
          item_field_name tok ≠ some (cstr "date")) →
        new_target.date_of_birth = target.date_of_birth) ∧
      ((∀ tok ∈ set_items ((params.drop (s + 5)).take (w - (s + 5))),
          item_field_name tok ≠ some (cstr "name") ∧
          item_field_name tok ≠ some (cstr "email") ∧
          item_field_name tok ≠ some (cstr "mail") ∧
          item_field_name tok ≠ some (cstr "job_type") ∧
          item_field_name tok ≠ some (cstr "email_verified") ∧
          item_field_name tok ≠ some (cstr "date")) →
        st1 = st) := by
  obtain ⟨s, w, i, k, hi, hs, hw, hk, hf, hid, hst⟩ := handle_update_command_success st st1 params h
  refine ⟨s, w, i, k, st.customer_table.get ⟨i, hi⟩,
    set_loop ((params.drop (s + 5)).take (w - (s + 5))) (st.customer_table.get ⟨i, hi⟩),
    hs, hw, hk, hf, ?_, hid, ?_, ?_, ?_, ?_, ?_, ?_, ?_, ?_, ?_, ?_, ?_, ?_, ?_⟩
  · simp [List.getElem?_eq_getElem hi]
  · rw [hst]
  · rw [hst]; simp
  · intro j hj
    rw [hst]
    simp only
    rw [List.getElem?_set_ne (Ne.symm hj)]
  · rw [hst]
    simp only
    rw [List.getElem?_set_self]
    simp [hi]
  · rw [hst]
  · rw [hst]
  · exact set_loop_preserves (fun t => t.id = (st.customer_table.get ⟨i, hi⟩).id)
      (fun tok t ht => (apply_set_item_id tok t).trans ht) _ _ rfl
  · intro hno
    rw [set_loop_eq_items]
    exact foldl_apply_set_item_frame Customer.name _ apply_set_item_name _ _ hno
  · intro hno
    rw [set_loop_eq_items]
    exact foldl_apply_set_item_frame Customer.mail _ apply_set_item_mail _ _ hno
  · intro hno
    rw [set_loop_eq_items]
    exact foldl_apply_set_item_frame Customer.job_type _ apply_set_item_keeps_job_type _ _ hno
  · intro hno
    rw [set_loop_eq_items]
    exact foldl_apply_set_item_frame Customer.email_verified _ apply_set_item_email_verified _ _ hno
  · intro hno
    rw [set_loop_eq_items]
    exact foldl_apply_set_item_frame Customer.date_of_birth _ apply_set_item_date _ _ hno
  · intro hno
    have hfold : set_loop ((params.drop (s + 5)).take (w - (s + 5)))
        (st.customer_table.get ⟨i, hi⟩) = st.customer_table.get ⟨i, hi⟩ := by
      rw [set_loop_eq_items]
      have h1 := foldl_apply_set_item_frame Customer.name _ apply_set_item_name _
        (st.customer_table.get ⟨i, hi⟩) (fun tok ht => (hno tok ht).1)
      have h2 := foldl_apply_set_item_frame Customer.mail _ apply_set_item_mail _
        (st.customer_table.get ⟨i, hi⟩) (fun tok ht => ⟨(hno tok ht).2.1, (hno tok ht).2.2.1⟩)
      have h3 := foldl_apply_set_item_frame Customer.job_type _ apply_set_item_keeps_job_type _
        (st.customer_table.get ⟨i, hi⟩) (fun tok ht => (hno tok ht).2.2.2.1)
      have h4 := foldl_apply_set_item_frame Customer.email_verified _
        apply_set_item_email_verified _
        (st.customer_table.get ⟨i, hi⟩) (fun tok ht => (hno tok ht).2.2.2.2.1)
      have h5 := foldl_apply_set_item_frame Customer.date_of_birth _ apply_set_item_date _
        (st.customer_table.get ⟨i, hi⟩) (fun tok ht => (hno tok ht).2.2.2.2.2)
      have h6 := foldl_apply_set_item_frame Customer.id (fun _ => True)
        (fun tok t _ => apply_set_item_id tok t)
        (set_items ((params.drop (s + 5)).take (w - (s + 5))))
        (st.customer_table.get ⟨i, hi⟩) (fun _ _ => trivial)
      exact customer_eq_of_fields _ _ h6 h1 h2 h3 h4 h5
    rw [hst, hfold, set_get_self]

/-- Witness of C11 at the example store and
`UPDATE CUSTOMER SET job_type=5, nick=x WHERE id=2`. -/
theorem C11_update_frame_witness :
    handle_update_command example_store example_update_params =
      some (0, updated_example_store) ∧
    ∃ (s w i : Nat) (k : Int) (target new_target : Customer),
      strstr example_update_params (cstr " SET ") = some s ∧ strstr example_update_params (cstr " WHERE id=") = some w ∧
      sscanf_sp_where_id (example_update_params.drop w) = some k ∧
      find_customer example_store.customer_table k = some i ∧
      example_store.customer_table[i]? = some target ∧ target.id = k ∧
      updated_example_store.customer_table = example_store.customer_table.set i new_target ∧
      updated_example_store.customer_table.length = example_store.customer_table.length ∧
      (∀ j, j ≠ i → updated_example_store.customer_table[j]? = example_store.customer_table[j]?) ∧
      updated_example_store.customer_table[i]? = some new_target ∧
      updated_example_store.next_customer_id = example_store.next_customer_id ∧
      updated_example_store.table_capacity = example_store.table_capacity ∧
      new_target.id = target.id ∧
      ((∀ tok ∈ set_items ((example_update_params.drop (s + 5)).take (w - (s + 5))),
          item_field_name tok ≠ some (cstr "name")) → new_target.name = target.name) ∧
      ((∀ tok ∈ set_items ((example_update_params.drop (s + 5)).take (w - (s + 5))),
          item_field_name tok ≠ some (cstr "email") ∧ item_field_name tok ≠ some (cstr "mail")) →
        new_target.mail = target.mail) ∧
      ((∀ tok ∈ set_items ((example_update_params.drop (s + 5)).take (w - (s + 5))),
          item_field_name tok ≠ some (cstr "job_type")) →
        new_target.job_type = target.job_type) ∧
      ((∀ tok ∈ set_items ((example_update_params.drop (s + 5)).take (w - (s + 5))),
          item_field_name tok ≠ some (cstr "email_verified")) →
        new_target.email_verified = target.email_verified) ∧
      ((∀ tok ∈ set_items ((example_update_params.drop (s + 5)).take (w - (s + 5))),
          item_field_name tok ≠ some (cstr "date")) →
        new_target.date_of_birth = target.date_of_birth) ∧
      ((∀ tok ∈ set_items ((example_update_params.drop (s + 5)).take (w - (s + 5))),
          item_field_name tok ≠ some (cstr "name") ∧
          item_field_name tok ≠ some (cstr "email") ∧
          item_field_name tok ≠ some (cstr "mail") ∧
          item_field_name tok ≠ some (cstr "job_type") ∧
          item_field_name tok ≠ some (cstr "email_verified") ∧
          item_field_name tok ≠ some (cstr "date")) →
        updated_example_store = example_store) :=
  ⟨updated_example_store_eq,
   C11_update_frame example_store updated_example_store example_update_params
     updated_example_store_eq⟩

/-- C12 at a failing input: a line whose verb is 64 bytes long is not one of the
four commands, but copying the verb overruns the 50-byte `command_type`, so the
line is not processed as an ignored line, whatever the store. -/
theorem C12_long_verb_overruns_command_type (st : Store) :
    process_line st (List.replicate 64 88 ++ cstr " Y;") = none := by
  rfl

/-- C13 at its own example: `strtok` skips the empty second field of
`Bob,,2,1,1.1.2000`, so the later fields move one position to the left: mail
`2`, job type 1, email_verified 1 (from `1.1.2000`) and the date default. -/
theorem C13_seed_line_empty_field_shifts :
    load_line initial_store (cstr "Bob,,2,1,1.1.2000" ++ [10]) =
      { customer_table :=
          [{ id := 1, name := cstr "Bob", mail := cstr "2", job_type := 1, email_verified := 1,
             date_of_birth := { day := 0, month := 0, year := 0 } }],
        table_capacity := 10, next_customer_id := 2 } := by
  decide

/-- C14 (amended): for every value list (a C string, so without NUL byte) of at most
511 bytes in which no `)` stands inside an open quote region, `robust_parse_insert_values` returns at each of
the 5 positions the trimmed and quote-stripped token of that position, cut to
the buffer sizes (raw token 149 bytes, name and email 99 bytes, date text 10
bytes), when it is not empty, and otherwise the default of the position; only
the first five tokens before the closing `)` are used. -/
theorem C14_insert_values_positional (v : CStr) (hlen : v.length ≤ 511) (h0 : 0 ∉ v)
    (hq : no_quoted_paren (spec_value_list v) false = true) :
    robust_parse_insert_values (some v) =
      cut_values (spec_values (cut_fields (spec_tokens 5 (spec_value_list v)))) := by
  unfold robust_parse_insert_values
  simp only
  by_cases hv : v.length = 0
  · have : v = [] := List.length_eq_zero.mp hv
    subst this
    rfl
  · rw [if_neg hv, List.take_of_length_le (by simp only [MAX_LINE_LEN]; omega)]
    have h0' : 0 ∉ spec_value_list v := by
      unfold spec_value_list
      split_ifs
      · exact fun hm => h0 (List.mem_of_mem_drop hm)
      · exact h0
    have := parse_fields_eq_store_fields 5 0 (spec_value_list v)
      { name_out := cstr "null", email_out := cstr "null", job_type_out := 0,
        email_verified_out := 0, date_str_out := cstr "0.0.0" } h0' hq
    unfold spec_value_list at this ⊢
    rw [this, store_fields_defaults]
    simp only [cut_fields, List.length_map]
    exact spec_tokens_length 5 _

/-- Witness of C14 at `("Smith, John", , 1)x, y`: quoted comma kept, empty and
absent positions defaulted, text after `)` ignored. -/
theorem C14_insert_values_positional_witness :
    (cstr "(\"Smith, John\", , 1)x, y").length ≤ 511 ∧
    0 ∉ cstr "(\"Smith, John\", , 1)x, y" ∧
    no_quoted_paren (spec_value_list (cstr "(\"Smith, John\", , 1)x, y")) false = true ∧
    robust_parse_insert_values (some (cstr "(\"Smith, John\", , 1)x, y")) =
      cut_values (spec_values (cut_fields (spec_tokens 5
        (spec_value_list (cstr "(\"Smith, John\", , 1)x, y"))))) ∧
    cut_values (spec_values (cut_fields (spec_tokens 5
        (spec_value_list (cstr "(\"Smith, John\", , 1)x, y"))))) =
      { name_out := cstr "Smith, John", email_out := cstr "null", job_type_out := 1,
        email_verified_out := 0, date_str_out := cstr "0.0.0" } :=
  ⟨by decide, by decide, by decide,
   C14_insert_values_positional (cstr "(\"Smith, John\", , 1)x, y") (by decide) (by decide)
     (by decide),
   by decide⟩

/-- C14 as stated fails at `(A, a@x.com, 0, 0, 01.01.20001)`: the fifth token has
11 bytes and `date_str_out` holds only its first 10. -/
theorem C14_long_date_text_counterexample :
    robust_parse_insert_values (some (cstr "(A, a@x.com, 0, 0, 01.01.20001)")) =
      { name_out := cstr "A", email_out := cstr "a@x.com", job_type_out := 0,
        email_verified_out := 0, date_str_out := cstr "01.01.2000" } ∧
    spec_values (spec_fields (spec_tokens 5
        (spec_value_list (cstr "(A, a@x.com, 0, 0, 01.01.20001)")))) =
      { name_out := cstr "A", email_out := cstr "a@x.com", job_type_out := 0,
        email_verified_out := 0, date_str_out := cstr "01.01.20001" } ∧
    ¬ (∀ v : CStr, robust_parse_insert_values (some v) =
        spec_values (spec_fields (spec_tokens 5 (spec_value_list v)))) := by
  refine ⟨by decide, by decide, fun h => ?_⟩
  have := h (cstr "(A, a@x.com, 0, 0, 01.01.20001)")
  revert this
  decide

/-- C15 at a failing input: from the reachable example store the line
`UPDATE CUSTOMER SET name="" WHERE id=1;` succeeds and leaves record 1 with
the empty name, in a reachable store. -/
theorem C15_update_stores_empty_name :
    Reachable example_store ∧
    process_line example_store (cstr "UPDATE CUSTOMER SET name=\"\" WHERE id=1;") =
      some (empty_name_store,
        cstr "----------" ++ [10] ++
          cstr ",bob@x.com,FULLSTACK_DEVELOPER,true,01.01.2000" ++ [10] ++
          cstr "Alice,alice@x.com,BACKEND_DEVELOPER,true,01.02.1990" ++ [10]) ∧
    Reachable empty_name_store ∧
    (empty_name_store.customer_table.map Customer.name).head? = some [] := by
  have h : process_line example_store (cstr "UPDATE CUSTOMER SET name=\"\" WHERE id=1;") =
      some (empty_name_store,
        cstr "----------" ++ [10] ++
          cstr ",bob@x.com,FULLSTACK_DEVELOPER,true,01.01.2000" ++ [10] ++
          cstr "Alice,alice@x.com,BACKEND_DEVELOPER,true,01.02.1990" ++ [10]) := by
    unfold process_line dispatch handle_update_command
    simp only [set_loop_eq_items]
    decide
  exact ⟨example_store_reachable, h,
    reachable_step example_store _ _ _ example_store_reachable h, rfl⟩

/-- C16: when the first `WHERE id=` of the parameters is followed by the integer
`k`, `handle_delete_command` (a total function: its loop terminates) leaves
exactly the records whose id is not `k`, in their previous order and with
their fields, the size reduced by the number of records of id `k`; capacity
and id counter are unchanged. -/
theorem C16_delete_is_filter (st : Store) (params : CStr) (off : Nat) (k : Int)
    (hm : strstr params (cstr "WHERE id=") = some off)
    (hk : sscanf_where_id (params.drop off) = some k) :
    (handle_delete_command st params).customer_table =
      st.customer_table.filter (fun c => decide (c.id ≠ k)) ∧
    (handle_delete_command st params).customer_count =
      st.customer_count - st.customer_table.countP (fun c => decide (c.id = k)) ∧
    (handle_delete_command st params).next_customer_id = st.next_customer_id ∧
    (handle_delete_command st params).table_capacity = st.table_capacity := by
  have ht : (handle_delete_command st params).customer_table =
      st.customer_table.filter (fun c => decide (c.id ≠ k)) := by
    unfold handle_delete_command
    rw [hm]
    simp only [hk]
    rw [delete_loop_eq_filter k _ 0 _ rfl]
    simp
  refine ⟨ht, ?_, ?_, ?_⟩
  · unfold Store.customer_count
    rw [ht]
    have := length_filter_add_countP st.customer_table k
    omega
  · unfold handle_delete_command
    rw [hm]
    simp only [hk]
  · unfold handle_delete_command
    rw [hm]
    simp only [hk]

/-- Witness of C16 at a store in which two records share the id 1. -/
theorem C16_delete_is_filter_witness :
    strstr (cstr "FROM CUSTOMER WHERE id=1") (cstr "WHERE id=") = some 14 ∧
    sscanf_where_id ((cstr "FROM CUSTOMER WHERE id=1").drop 14) = some 1 ∧
    (handle_delete_command duplicate_id_store (cstr "FROM CUSTOMER WHERE id=1")).customer_table =
      duplicate_id_store.customer_table.filter (fun c => decide (c.id ≠ 1)) ∧
    (handle_delete_command duplicate_id_store (cstr "FROM CUSTOMER WHERE id=1")).customer_count =
      duplicate_id_store.customer_count -
        duplicate_id_store.customer_table.countP (fun c => decide (c.id = 1)) ∧
    (handle_delete_command duplicate_id_store
      (cstr "FROM CUSTOMER WHERE id=1")).next_customer_id =
        duplicate_id_store.next_customer_id ∧
    (handle_delete_command duplicate_id_store (cstr "FROM CUSTOMER WHERE id=1")).table_capacity =
      duplicate_id_store.table_capacity :=
  ⟨by decide, by decide,
   C16_delete_is_filter duplicate_id_store (cstr "FROM CUSTOMER WHERE id=1") 14 1
     (by decide) (by decide)⟩

/-- C17: for every store with id counter `c` and every INSERT whose parameters
contain `(`, the table afterwards is the previous table followed by one new
record with id `c`, and the id counter is `c + 1`. -/
theorem C17_insert_appends_fresh_id (st : Store) (params : CStr) (h : 40 ∈ params) :
    ∃ c : Customer,
      (handle_insert_command st params).customer_table = st.customer_table ++ [c] ∧
      c.id = st.next_customer_id ∧
      (handle_insert_command st params).next_customer_id = st.next_customer_id + 1 := by
  obtain ⟨r, hr⟩ := strchr_ne_none_of_mem params 40 h
  unfold handle_insert_command
  rw [hr]
  simp only
  exact ⟨_, (add_customer_record_table _ _).1, rfl, (add_customer_record_table _ _).2⟩

/-- Witness of C17 at the example store. -/
theorem C17_insert_appends_fresh_id_witness :
    40 ∈ cstr "(Carol, carol@x.com, 3, 1, 2.3.1980)" ∧
    ∃ c : Customer,
      (handle_insert_command example_store
        (cstr "(Carol, carol@x.com, 3, 1, 2.3.1980)")).customer_table =
          example_store.customer_table ++ [c] ∧
      c.id = example_store.next_customer_id ∧
      (handle_insert_command example_store
        (cstr "(Carol, carol@x.com, 3, 1, 2.3.1980)")).next_customer_id =
          example_store.next_customer_id + 1 :=
  ⟨by decide, C17_insert_appends_fresh_id example_store _ (by decide)⟩

/-- C18 at its own input: the scan stops at the `)` of `(Jr)` although a quote
region is open, so the name is the text `"Smith (Jr` with its opening quote and
the other four fields keep their defaults. -/
theorem C18_paren_in_quotes_ends_token :
    robust_parse_insert_values (some (cstr "(\"Smith (Jr)\", a@x.com, 1, 0, 1.1.2000)")) =
      { name_out := cstr "\"Smith (Jr", email_out := cstr "null", job_type_out := 0,
        email_verified_out := 0, date_str_out := cstr "0.0.0" } := by
  decide

/-- C19 at its own input: the SET clause is split at every comma, so
`UPDATE CUSTOMER SET name="Smith, John" WHERE id=1;` succeeds but leaves record
1 with the name `"Smith`; the item ` John"` has no `=` and is skipped. -/
theorem C19_update_splits_quoted_comma :
    process_line example_store
        (cstr "UPDATE CUSTOMER SET name=\"Smith, John\" WHERE id=1;") =
      some
        ({ customer_table :=
             [{ id := 1, name := cstr "\"Smith", mail := cstr "bob@x.com", job_type := 2,
                email_verified := 1, date_of_birth := { day := 1, month := 1, year := 2000 } },
              { id := 2, name := cstr "Alice", mail := cstr "alice@x.com", job_type := 0,
                email_verified := 1, date_of_birth := { day := 1, month := 2, year := 1990 } }],
           table_capacity := 10, next_customer_id := 3 },
         cstr "----------" ++ [10] ++
           cstr "\"Smith,bob@x.com,FULLSTACK_DEVELOPER,true,01.01.2000" ++ [10] ++
           cstr "Alice,alice@x.com,BACKEND_DEVELOPER,true,01.02.1990" ++ [10]) := by
  unfold process_line dispatch handle_update_command
  simp only [set_loop_eq_items]
  decide

/-- C20: in every reachable store the size is at most the capacity, the capacity
is 0 or 10 times a power of two, and after `ensure_table_capacity` the index
`customer_count` written by `add_customer_record` is below the capacity. -/
theorem C20_size_within_capacity (st : Store) (h : Reachable st) :
    st.customer_count ≤ st.table_capacity ∧
    (st.table_capacity = 0 ∨ ∃ n : Nat, st.table_capacity = 10 * 2 ^ n) ∧
    (ensure_table_capacity st).customer_count < (ensure_table_capacity st).table_capacity := by
  have hc : CapacityOk st := reachable_invariant CapacityOk
    ⟨by simp [initial_store, Store.customer_count], Or.inl rfl⟩
    (fun st line hs => by
      obtain ⟨c, hc, _, _⟩ := load_line_appends st line
      rw [hc]; exact CapacityOk_add _ c hs)
    (fun st line st1 out hs hp => CapacityOk_process_line st st1 line out hs hp) st h
  exact ⟨hc.1, hc.2, (ensure_table_capacity_room st hc).1⟩

/-- Witness of C20 at the example store. -/
theorem C20_size_within_capacity_witness :
    Reachable example_store ∧
    example_store.customer_count ≤ example_store.table_capacity ∧
    (example_store.table_capacity = 0 ∨ ∃ n : Nat, example_store.table_capacity = 10 * 2 ^ n) ∧
    (ensure_table_capacity example_store).customer_count <
      (ensure_table_capacity example_store).table_capacity :=
  ⟨example_store_reachable, C20_size_within_capacity example_store example_store_reachable⟩


end MiniSql
